import Mathlib

/-!
# Lab3.1: a threaded recursive copy (`src/main.c`)

A shallow embedding of `safe_lstat`, `copy_file`, `copy_dir` and `main`.

The program talks to the operating system all the time, so every function of the
embedding takes the answers of the operating system as an explicit argument:

* a call that sits in a retry loop gets the list of the outcomes of its successive
  attempts (`List (Attempt α)`); when the list is used up while the loop is still
  retrying, the function has not returned: `copy_file` then yields `none`, and `copy_dir`
  yields the trace so far with `returned := false`;
* `read` gets the list of its successive results, `write` a function of the number
  of the call and of the requested byte count; the inner write loop runs on `fuel`;
* `readdir_r` gets the list of the entries it hands over, each with the answers to the
  calls made for that entry;
* what the calls do to the file system (`open` with `O_CREAT | O_TRUNC`, `mkdir`)
  follows POSIX and is written down in `open_creat_trunc`, `mkdir` and `creat_perm`.

The constant `PATH_MAX` of `<limits.h>` is a parameter.  Output to `stderr` (`fprintf`,
`perror`) and `free` are left out.  Everything else a function does is recorded, in program
order, as a list of `Event`s.  A thread that is started runs on its own; what it does is
not part of the trace of the function that started it.
-/

namespace Lab3

/-! ## Data model -/

/-- The characters of a NUL-terminated C string, the terminator left out. -/
abbrev CStr := List Char

/-- One byte of file content. -/
abbrev Byte := UInt8

/-- Size of the copy buffer, `#define COPY_BUF 65536`. -/
def COPY_BUF : Nat := 65536

/-- Size of the thread handle array, `#define MAX_THREADS 64`. -/
def MAX_THREADS : Nat := 64

/-- Value of `EMFILE` in `<errno.h>` (Linux). -/
def EMFILE : Nat := 24

/-- Value of `EAGAIN` in `<errno.h>` (Linux). -/
def EAGAIN : Nat := 11

/-- Value of `EEXIST` in `<errno.h>` (Linux). -/
def EEXIST : Nat := 17

/-- The struct `task_t`: the two path buffers, each holding a C string. -/
structure task_t where
  src : CStr
  dst : CStr
deriving DecidableEq, Repr

/-- Outcome of one attempt of a system call: its result, or the `errno` it failed with. -/
inductive Attempt (α : Type) where
  | ok (v : α)
  | err (errno : Nat)
deriving DecidableEq, Repr

/-- The start routine handed to `pthread_create`. -/
inductive Handler where
  | copy_dir
  | copy_file
deriving DecidableEq, Repr

/-- The two descriptors of `copy_file`. -/
inductive Fd where
  | in_fd
  | out_fd
deriving DecidableEq, Repr

/-- What a function does, in program order. -/
inductive Event where
  /-- The call `sleep(secs)`. -/
  | sleep (secs : Nat)
  /-- A successful `open`. -/
  | opened (fd : Fd)
  /-- The call `close(fd)`. -/
  | closed (fd : Fd)
  /-- A successful `opendir`. -/
  | opendir
  /-- The call `closedir(dir)`. -/
  | closedir
  /-- The call `mkdir(t->dst, mode)` and its outcome. -/
  | mkdir (mode : Nat) (res : Attempt Unit)
  /-- A successful `pthread_create(&threads[slot], NULL, h, nt)` that started thread `tid`. -/
  | create (slot : Nat) (tid : Nat) (h : Handler) (nt : task_t)
  /-- A failed `pthread_create(&threads[slot], NULL, h, nt)` with return code `rc`. -/
  | create_failed (slot : Nat) (rc : Nat)
  /-- The call `pthread_join(threads[slot], NULL)` on the thread `tid` found there. -/
  | join (slot : Nat) (tid : Nat)
deriving DecidableEq, Repr

/-- Type of a file-system entry. -/
inductive Kind where
  | reg
  | dir
  | other
deriving DecidableEq, Repr

/-- What is found at a path: its type, its nine read, write and execute permission bits
(`st_mode & 0777`) and, for a regular file, its content.  The set-uid, set-gid and sticky
bits are not part of the model: the kernel sets and clears them on its own (a write or a
truncation by an unprivileged process clears set-uid and set-gid, a new directory takes
set-gid over from its parent), so the code does not decide them. -/
structure Inode where
  kind : Kind
  rwx : Nat
  data : List Byte
deriving DecidableEq, Repr

/-- The mask `S_IFMT` of `<sys/stat.h>`. -/
def S_IFMT : Nat := 0o170000

/-- The macro `S_ISDIR(m)` of `<sys/stat.h>`: `(m & S_IFMT) == S_IFDIR`. -/
def S_ISDIR (m : Nat) : Bool := m &&& S_IFMT == 0o040000

/-- The macro `S_ISREG(m)` of `<sys/stat.h>`: `(m & S_IFMT) == S_IFREG`. -/
def S_ISREG (m : Nat) : Bool := m &&& S_IFMT == 0o100000

/-- The nine read, write and execute bits that a creating call gives a new entry (POSIX
`open`, `mkdir`, in a directory without a default access control list): the bits of
`mode & 0777` that are not set in the file mode creation mask. -/
def creat_perm (umask mode : Nat) : Nat :=
  (mode &&& 0o777) &&& (0o777 ^^^ (umask &&& 0o777))

/-! ## The retry loop -/

/-- The loop `while (call(...) < 0) { if (errno == EMFILE || errno == EAGAIN) { sleep(1);
continue; } ...; fail }` of lines 23, 41, 54 and 90, run on the outcomes of the successive
attempts.  Returns the outcome that ended the loop (`none` when the attempts are used up
while it is still retrying) and the number of `sleep(1)` calls made. -/
def retry_loop {α : Type} : List (Attempt α) → Option (Attempt α) × Nat
  | [] => (none, 0)
  | .ok v :: _ => (some (.ok v), 0)
  | .err e :: rest =>
    if e = EMFILE ∨ e = EAGAIN then ((retry_loop rest).1, (retry_loop rest).2 + 1)
    else (some (.err e), 0)

/-- The function `safe_lstat`: `lstat` inside the retry loop; the value is `st_mode`. -/
def safe_lstat (attempts : List (Attempt Nat)) : Option (Attempt Nat) × Nat :=
  retry_loop attempts

/-- A run of `n` calls `sleep(1)`. -/
def sleeps (n : Nat) : List Event := List.replicate n (Event.sleep 1)

/-! ## copy_file -/

/-- POSIX `open(path, O_WRONLY | O_CREAT | O_TRUNC, mode)` when it succeeds: an absent
path becomes an empty regular file with the read, write and execute bits of `mode` outside
the creation mask; an existing file is emptied and keeps its read, write and execute
bits. -/
def open_creat_trunc (umask mode : Nat) : Option Inode → Option Inode
  | none => some ⟨Kind.reg, creat_perm umask mode, []⟩
  | some i => some { i with data := [] }

/-- How the copy loop of `copy_file` ended. -/
inductive LoopEnd where
  /-- A read returned 0. -/
  | eof
  /-- A read returned a negative value. -/
  | read_failed (errno : Nat)
  /-- A write returned a negative value. -/
  | write_failed (errno : Nat)
deriving DecidableEq, Repr

/-- The inner loop `while (off < r) { w = write(out_fd, buf + off, r - off); ... }` of
lines 66-73.  `buf` holds the `r` bytes of the chunk, `k` counts the calls of `write` made
so far, `out` is the content of the destination.  `write k n` is the outcome of call
number `k` when asked for `n` bytes.  Gives `none` when `fuel` iterations do not end the
loop; otherwise the error of a failed write (if any), the call count and the content. -/
def write_chunk (write : Nat → Nat → Attempt Nat) (buf : List Byte) :
    Nat → Nat → Nat → List Byte → Option (Option Nat × Nat × List Byte)
  | 0, _, _, _ => none
  | fuel + 1, k, off, out =>
    if off < buf.length then
      match write k (buf.length - off) with
      | .err e => some (some e, k + 1, out)
      | .ok w => write_chunk write buf fuel (k + 1) (off + w) (out ++ (buf.drop off).take w)
    else some (none, k, out)

/-- The loop `while ((r = read(in_fd, buf, COPY_BUF)) > 0) { ... }` of lines 64-76, run on
the successive results of `read`.  A read hands over at most `COPY_BUF` bytes.  Gives
`none` when the reads are used up before the loop ends or an inner loop runs out of
`fuel`; otherwise how the loop ended and the content of the destination. -/
def copy_loop (write : Nat → Nat → Attempt Nat) (fuel : Nat) :
    List (Attempt (List Byte)) → Nat → List Byte → Option (LoopEnd × List Byte)
  | [], _, _ => none
  | .err e :: _, _, out => some (LoopEnd.read_failed e, out)
  | .ok bs :: rest, k, out =>
    if (bs.take COPY_BUF).length > 0 then
      match write_chunk write (bs.take COPY_BUF) fuel k 0 out with
      | none => none
      | some (some e, _, out1) => some (LoopEnd.write_failed e, out1)
      | some (none, k1, out1) => copy_loop write fuel rest k1 out1
    else some (LoopEnd.eof, out)

/-- The answers of the operating system to one run of `copy_file`. -/
structure FileEnv where
  /-- Outcomes of the successive `open(t->src, O_RDONLY)`. -/
  open_src : List (Attempt Unit)
  /-- Outcomes of the successive `lstat(t->src, &st)`, with `st_mode`. -/
  lstat : List (Attempt Nat)
  /-- Outcomes of the successive `open(t->dst, O_WRONLY | O_CREAT | O_TRUNC, st.st_mode)`. -/
  open_dst : List (Attempt Unit)
  /-- The file mode creation mask of the process. -/
  umask : Nat
  /-- What is at `t->dst` before the call. -/
  dst : Option Inode
  /-- Results of the successive `read(in_fd, buf, COPY_BUF)`. -/
  reads : List (Attempt (List Byte))
  /-- Result of call number `k` of `write` when asked for `n` bytes. -/
  write : Nat → Nat → Attempt Nat

/-- The step at which `copy_file` stopped. -/
inductive FileStatus where
  | open_src_failed (errno : Nat)
  | lstat_failed (errno : Nat)
  | open_dst_failed (errno : Nat)
  | read_failed (errno : Nat)
  | write_failed (errno : Nat)
  /-- Every step succeeded. -/
  | copied
deriving DecidableEq, Repr

/-- What one run of `copy_file` leaves behind. -/
structure FileResult where
  trace : List Event
  /-- What is at `t->dst` after the call. -/
  dst : Option Inode
  status : FileStatus
deriving DecidableEq, Repr

/-- Put the written bytes into the file found at the destination path; writing leaves the
read, write and execute bits as they are. -/
def set_data (d : Option Inode) (out : List Byte) : Option Inode :=
  d.map fun i => { i with data := out }

/-- The function `copy_file` (lines 35-83).  Gives `none` when a loop has not ended with the
answers and the `fuel` given. -/
def copy_file (fuel : Nat) (env : FileEnv) : Option FileResult :=
  match retry_loop env.open_src with
  | (none, _) => none
  | (some (.err e), n1) => some ⟨sleeps n1, env.dst, FileStatus.open_src_failed e⟩
  | (some (.ok _), n1) =>
    match safe_lstat env.lstat with
    | (none, _) => none
    | (some (.err e), n2) =>
      some ⟨sleeps n1 ++ Event.opened Fd.in_fd :: sleeps n2 ++ [Event.closed Fd.in_fd],
        env.dst, FileStatus.lstat_failed e⟩
    | (some (.ok st_mode), n2) =>
      match retry_loop env.open_dst with
      | (none, _) => none
      | (some (.err e), n3) =>
        some ⟨sleeps n1 ++ Event.opened Fd.in_fd :: sleeps n2 ++ sleeps n3
            ++ [Event.closed Fd.in_fd],
          env.dst, FileStatus.open_dst_failed e⟩
      | (some (.ok _), n3) =>
        match copy_loop env.write fuel env.reads 0 [] with
        | none => none
        | some (e, out) =>
          some ⟨sleeps n1 ++ Event.opened Fd.in_fd :: sleeps n2 ++ sleeps n3
              ++ [Event.opened Fd.out_fd, Event.closed Fd.in_fd, Event.closed Fd.out_fd],
            set_data (open_creat_trunc env.umask st_mode env.dst) out,
            match e with
            | LoopEnd.eof => FileStatus.copied
            | LoopEnd.read_failed c => FileStatus.read_failed c
            | LoopEnd.write_failed c => FileStatus.write_failed c⟩

/-! ## copy_dir -/

/-- One entry handed over by `readdir_r`, with the answers of the operating system to the
calls that `copy_dir` makes for it. -/
structure DirEnt where
  /-- The field `d_name` of the entry. -/
  d_name : CStr
  /-- Outcomes of the successive `lstat(src_path, &st)`, with `st_mode`. -/
  lstat : List (Attempt Nat)
  /-- Whether `malloc(sizeof(task_t))` gives a block. -/
  malloc_ok : Bool
  /-- Return code of `pthread_create`. -/
  prc : Nat
deriving DecidableEq, Repr

/-- One call of `readdir_r` that did not report the end of the stream. -/
inductive ReadDir where
  /-- The call returned `ret != 0`. -/
  | error (ret : Nat)
  /-- The call handed over an entry. -/
  | entry (e : DirEnt)
deriving DecidableEq, Repr

/-- The local variables of the enumeration loop of `copy_dir`.  Thread identifiers are
handed out by the operating system; the embedding numbers the threads that one invocation
starts 0, 1, 2, ... in `next_tid`. -/
structure LoopState where
  /-- The array `pthread_t threads[MAX_THREADS]`. -/
  threads : List Nat
  n_threads : Nat
  next_tid : Nat
deriving DecidableEq, Repr

/-- The loop `for (int i = 0; i < n_threads; i++) pthread_join(threads[i], NULL);`. -/
def join_all (s : LoopState) : List Event :=
  (List.range s.n_threads).map fun i => Event.join i (s.threads.getD i 0)

/-- The trace of a loop, the variables it ends with, and whether it ended. -/
structure LoopResult where
  trace : List Event
  state : LoopState
  returned : Bool
deriving DecidableEq, Repr

/-- Put events in front of the trace of the rest of a loop. -/
def LoopResult.after (evs : List Event) (r : LoopResult) : LoopResult :=
  { r with trace := evs ++ r.trace }

/-- The loop `while (1) { ... }` of lines 117-175, run on the successive results of
`readdir_r`; the end of the list is the call that sets `result` to `NULL`.  `PATH_MAX` is the
constant of `<limits.h>`. -/
def copy_dir_loop (PATH_MAX : Nat) (t : task_t) : List ReadDir → LoopState → LoopResult
  | [], s => ⟨[], s, true⟩
  | .error _ :: _, s => ⟨[], s, true⟩
  | .entry e :: rest, s =>
    if e.d_name = ['.'] ∨ e.d_name = ['.', '.'] then copy_dir_loop PATH_MAX t rest s
    else if (t.src ++ '/' :: e.d_name).length ≥ PATH_MAX
        ∨ (t.dst ++ '/' :: e.d_name).length ≥ PATH_MAX then
      copy_dir_loop PATH_MAX t rest s
    else
      match safe_lstat e.lstat with
      | (none, n) => ⟨sleeps n, s, false⟩
      | (some (.err _), n) => (copy_dir_loop PATH_MAX t rest s).after (sleeps n)
      | (some (.ok st_mode), n) =>
        if !S_ISDIR st_mode && !S_ISREG st_mode then
          (copy_dir_loop PATH_MAX t rest s).after (sleeps n)
        else if !e.malloc_ok then (copy_dir_loop PATH_MAX t rest s).after (sleeps n)
        else if e.prc ≠ 0 then
          (copy_dir_loop PATH_MAX t rest s).after
            (sleeps n ++ [Event.create_failed s.n_threads e.prc])
        else
          let s1 : LoopState :=
            { threads := s.threads.set s.n_threads s.next_tid
              n_threads := s.n_threads + 1
              next_tid := s.next_tid + 1 }
          let ev := Event.create s.n_threads s.next_tid
            (if S_ISDIR st_mode then Handler.copy_dir else Handler.copy_file)
            ⟨t.src ++ '/' :: e.d_name, t.dst ++ '/' :: e.d_name⟩
          if s1.n_threads = MAX_THREADS then
            (copy_dir_loop PATH_MAX t rest { s1 with n_threads := 0 }).after
              (sleeps n ++ ev :: join_all s1)
          else (copy_dir_loop PATH_MAX t rest s1).after (sleeps n ++ [ev])

/-- The variables `threads` and `n_threads` as declared in lines 114-115. -/
def init_state : LoopState := ⟨List.replicate MAX_THREADS 0, 0, 0⟩

/-- Lines 113-178 of `copy_dir`: the enumeration loop and the joins that follow it. -/
def copy_dir_body (PATH_MAX : Nat) (t : task_t) (stream : List ReadDir) : LoopResult :=
  let r := copy_dir_loop PATH_MAX t stream init_state
  if r.returned then { r with trace := r.trace ++ join_all r.state } else r

/-- POSIX `mkdir(path, mode)`: it fails with `EEXIST` when something is at the path, whatever
its type, and leaves it as it is; otherwise it makes a directory with the read, write and
execute bits of `mode` outside the creation mask.  `fault` is an error that the call runs
into before that. -/
def mkdir (fault : Option Nat) (umask mode : Nat) : Option Inode → Attempt Unit × Option Inode
  | some i => (Attempt.err (fault.getD EEXIST), some i)
  | none =>
    match fault with
    | some e => (Attempt.err e, none)
    | none => (Attempt.ok (), some ⟨Kind.dir, creat_perm umask mode, []⟩)

/-- The answers of the operating system to one run of `copy_dir`. -/
structure DirEnv where
  /-- Outcomes of the successive `opendir(t->src)`. -/
  opendir : List (Attempt Unit)
  /-- The file mode creation mask of the process. -/
  umask : Nat
  /-- What is at `t->dst` before the call. -/
  dst : Option Inode
  /-- An error that `mkdir` runs into, if any. -/
  mkdir_fault : Option Nat
  /-- Whether `malloc(entry_size)` gives a block. -/
  entry_buf_ok : Bool
  /-- The successive results of `readdir_r`. -/
  stream : List ReadDir

/-- What one run of `copy_dir` leaves behind. -/
structure DirResult where
  trace : List Event
  /-- What is at `t->dst` once the `mkdir` step is over. -/
  dst : Option Inode
  returned : Bool
deriving DecidableEq, Repr

/-- The test `mkdir(t->dst, 0755) < 0 && errno != EEXIST` of line 100. -/
def mkdir_failed : Attempt Unit → Bool
  | .ok _ => false
  | .err e => e != EEXIST

/-- The function `copy_dir` (lines 86-186).  The size computed from `pathconf` only sets how
much `malloc` is asked for and is left out. -/
def copy_dir (PATH_MAX : Nat) (t : task_t) (env : DirEnv) : DirResult :=
  match retry_loop env.opendir with
  | (none, n) => ⟨sleeps n, env.dst, false⟩
  | (some (.err _), n) => ⟨sleeps n, env.dst, true⟩
  | (some (.ok _), n) =>
    let m := mkdir env.mkdir_fault env.umask 0o755 env.dst
    let pre := sleeps n ++ [Event.opendir, Event.mkdir 0o755 m.1]
    if mkdir_failed m.1 then ⟨pre, m.2, true⟩
    else if !env.entry_buf_ok then ⟨pre, m.2, true⟩
    else
      let r := copy_dir_body PATH_MAX t env.stream
      if r.returned then ⟨pre ++ r.trace ++ [Event.closedir], m.2, true⟩
      else ⟨pre ++ r.trace, m.2, false⟩

/-! ## main -/

/-- The terminating NUL of a C string. -/
def NUL : Char := Char.ofNat 0

/-- The function `strncmp(a, b, n)` on C strings: the sign of the first difference among the
first `n` characters, the terminators included. -/
def strncmp : CStr → CStr → Nat → Int
  | _, _, 0 => 0
  | [], [], _ + 1 => 0
  | [], _ :: _, _ + 1 => -1
  | _ :: _, [], _ + 1 => 1
  | a :: as, b :: bs, n + 1 =>
    if a = b then strncmp as bs n else if a.toNat < b.toNat then -1 else 1

/-- The guard of lines 204-206 on the two buffers `dst_real` and `src_real`.  The buffer
`dst_real` holds NUL from the end of its string on. -/
def inside_source (dst_real src_real : CStr) : Bool :=
  strncmp dst_real src_real src_real.length == 0 &&
    (dst_real.getD src_real.length NUL == '/' || dst_real.getD src_real.length NUL == NUL)

/-- The answers of the operating system to one run of `main`. -/
structure MainEnv where
  /-- Result of `realpath(argv[1], src_real)`: the resolved path, or failure. -/
  realpath : Option CStr
  /-- Outcome of `lstat(src_real, &st)`, with `st_mode`. -/
  lstat : Attempt Nat
  /-- Whether `malloc(sizeof(task_t))` gives a block. -/
  malloc_ok : Bool
  /-- Return code of `pthread_create`. -/
  prc : Nat
  /-- Everything the root thread and its descendants do before the root thread ends. -/
  run : Handler → task_t → List Event

/-- The function `main` (lines 188-247): the exit code and the trace.  `argv` holds the
program name and the arguments, so `argc` is its length.  The single thread handle `tid` is
recorded as slot 0 and the root thread as thread 0. -/
def main (PATH_MAX : Nat) (argv : List CStr) (env : MainEnv) : Nat × List Event :=
  if argv.length ≠ 3 then (1, [])
  else
    match env.realpath with
    | none => (1, [])
    | some src_real =>
      let dst_real := (argv.getD 2 []).take (PATH_MAX - 1)
      if inside_source dst_real src_real then (1, [])
      else
        match env.lstat with
        | .err _ => (1, [])
        | .ok st_mode =>
          if !env.malloc_ok then (1, [])
          else if S_ISDIR st_mode then
            if env.prc ≠ 0 then (1, [Event.create_failed 0 env.prc])
            else (0, Event.create 0 0 Handler.copy_dir ⟨src_real, dst_real⟩
              :: env.run Handler.copy_dir ⟨src_real, dst_real⟩ ++ [Event.join 0 0])
          else if S_ISREG st_mode then
            if env.prc ≠ 0 then (1, [Event.create_failed 0 env.prc])
            else (0, Event.create 0 0 Handler.copy_file ⟨src_real, dst_real⟩
              :: env.run Handler.copy_file ⟨src_real, dst_real⟩ ++ [Event.join 0 0])
          else (1, [])

/-- The tasks of a run: the root task that `main` makes, and the tasks that `copy_dir`,
running on a task made for it, makes in turn, whatever the operating system answers. -/
inductive Created (PATH_MAX : Nat) (argv : List CStr) (menv : MainEnv) :
    Handler → task_t → Prop where
  | root (slot tid : Nat) (h : Handler) (t : task_t) :
    Event.create slot tid h t ∈ (main PATH_MAX argv { menv with run := fun _ _ => [] }).2 →
    Created PATH_MAX argv menv h t
  | child (parent : task_t) (denv : DirEnv) (slot tid : Nat) (h : Handler) (t : task_t) :
    Created PATH_MAX argv menv Handler.copy_dir parent →
    Event.create slot tid h t ∈ (copy_dir PATH_MAX parent denv).trace →
    Created PATH_MAX argv menv h t

/-! ## Reading a trace -/

/-- The threads running after an event, given those running before it: a started thread
comes in, a joined thread goes out. -/
def live_step (L : List Nat) : Event → List Nat
  | .create _ tid _ _ => L ++ [tid]
  | .join _ tid => L.erase tid
  | _ => L

/-- The threads started and not yet joined after the events `evs`, given those before. -/
def live (L : List Nat) (evs : List Event) : List Nat := evs.foldl live_step L

/-- The threads started along a trace, in order, with handler and task. -/
def created (evs : List Event) : List (Nat × Handler × task_t) :=
  evs.filterMap fun ev =>
    match ev with
    | .create _ tid h nt => some (tid, h, nt)
    | _ => none

/-- The threads joined along a trace, in order. -/
def joined (evs : List Event) : List Nat :=
  evs.filterMap fun ev =>
    match ev with
    | .join _ tid => some tid
    | _ => none

/-- Whether an event is a call of `sleep`. -/
def Event.is_sleep : Event → Bool
  | .sleep _ => true
  | _ => false

/-- The number of seconds slept along a trace. -/
def slept : List Event → Nat
  | [] => 0
  | .sleep n :: evs => n + slept evs
  | _ :: evs => slept evs

/-- A trace without its calls of `sleep`. -/
def awake (evs : List Event) : List Event := evs.filter fun ev => !ev.is_sleep

/-- The property `P` holds of every event of a trace, taken with the threads that are running
when the event happens. -/
def at_every_event (P : List Nat → Event → Prop) : List Nat → List Event → Prop
  | _, [] => True
  | L, ev :: evs => P L ev ∧ at_every_event P (live_step L ev) evs

/-- Whether an entry is one of the two names that the loop passes over. -/
def DirEnt.is_dot (e : DirEnt) : Bool := e.d_name == ['.'] || e.d_name == ['.', '.']

/-- The `st_mode` that `safe_lstat` hands over for an entry (0 when it does not). -/
def DirEnt.st_mode (e : DirEnt) : Nat :=
  match (safe_lstat e.lstat).1 with
  | some (.ok m) => m
  | _ => 0

/-- An entry other than `.` and `..` that is a directory or a regular file. -/
def DirEnt.eligible (e : DirEnt) : Bool :=
  !e.is_dot && (S_ISDIR e.st_mode || S_ISREG e.st_mode)

/-- The handler and the task that an eligible entry of the directory of task `t` calls for. -/
def child_task (t : task_t) (e : DirEnt) : Handler × task_t :=
  (if S_ISDIR e.st_mode then Handler.copy_dir else Handler.copy_file,
    ⟨t.src ++ '/' :: e.d_name, t.dst ++ '/' :: e.d_name⟩)

/-- Two runs of `copy_file` that end alike, the first with `n` more seconds of sleep. -/
def file_slept_more (n : Nat) : Option FileResult → Option FileResult → Prop
  | none, none => True
  | some a, some b =>
    a.dst = b.dst ∧ a.status = b.status ∧ awake a.trace = awake b.trace
      ∧ slept a.trace = slept b.trace + n
  | _, _ => False

/-- Two runs of `copy_dir` that end alike, the first with `n` more seconds of sleep. -/
def dir_slept_more (n : Nat) (a b : DirResult) : Prop :=
  a.dst = b.dst ∧ a.returned = b.returned ∧ awake a.trace = awake b.trace
    ∧ slept a.trace = slept b.trace + n

/-- Two runs of the enumeration loop that end alike, the first with `n` more seconds of
sleep. -/
def loop_slept_more (n : Nat) (a b : LoopResult) : Prop :=
  a.state = b.state ∧ a.returned = b.returned ∧ awake a.trace = awake b.trace
    ∧ slept a.trace = slept b.trace + n

/-! ## Sample runs -/

/-- The task of copying the directory `/s` to `/d`. -/
def demo_task : task_t := ⟨['/', 's'], ['/', 'd']⟩

/-- The entries of `/s`: the two dot entries, a regular file `f` whose first `lstat` fails
with `EMFILE`, a FIFO `p` and a directory `g`. -/
def demo_entries : List DirEnt :=
  [⟨['.'], [Attempt.ok 0o040755], true, 0⟩,
   ⟨['.', '.'], [Attempt.ok 0o040755], true, 0⟩,
   ⟨['f'], [Attempt.err EMFILE, Attempt.ok 0o100644], true, 0⟩,
   ⟨['p'], [Attempt.ok 0o010644], true, 0⟩,
   ⟨['g'], [Attempt.ok 0o040700], true, 0⟩]

/-- A run of `copy_dir` in which every call succeeds, `/d` is absent and the mask is 022. -/
def demo_dir_env : DirEnv :=
  ⟨[Attempt.ok ()], 0o022, none, none, true, demo_entries.map ReadDir.entry⟩

/-- The same run, with `/d` there already as a directory of mode 0700. -/
def demo_dir_env_existing : DirEnv :=
  ⟨[Attempt.ok ()], 0o022, some ⟨Kind.dir, 0o700, []⟩, none, true,
    demo_entries.map ReadDir.entry⟩

/-- A run of `copy_dir` in which `opendir` succeeds and `mkdir` fails with `EACCES` (13). -/
def demo_dir_env_mkdir_fails : DirEnv :=
  ⟨[Attempt.ok ()], 0o022, none, some 13, true, demo_entries.map ReadDir.entry⟩

/-- A run of `copy_dir` in which `opendir` and `mkdir` succeed and `malloc(entry_size)`
gives no block. -/
def demo_dir_env_malloc_fails : DirEnv :=
  ⟨[Attempt.ok ()], 0o022, none, none, false, demo_entries.map ReadDir.entry⟩

/-- The command line `cp /s /d`. -/
def demo_argv : List CStr := [['c', 'p'], ['/', 's'], ['/', 'd']]

/-- A run of `main` in which `/s` resolves to itself and is a directory, and every call
succeeds. -/
def demo_main_env : MainEnv := ⟨some ['/', 's'], Attempt.ok 0o040755, true, 0, fun _ _ => []⟩

/-- The command line `cp / /tmp/out`. -/
def root_argv : List CStr := [['c', 'p'], ['/'], ['/', 't', 'm', 'p', '/', 'o', 'u', 't']]

/-- A run of `main` in which the source resolves to the root directory `/` and every call
succeeds. -/
def root_main_env : MainEnv := ⟨some ['/'], Attempt.ok 0o040755, true, 0, fun _ _ => []⟩

/-- A run of `copy_file` onto an absent destination in which every call succeeds at once and
every write takes all the bytes it is given. -/
def demo_file_env : FileEnv :=
  ⟨[Attempt.ok ()], [Attempt.ok 0o100644], [Attempt.ok ()], 0, none,
    [Attempt.ok [1, 2], Attempt.ok []], fun _ n => Attempt.ok n⟩

/-- The same run onto a destination that is there already, with mode 0600 and old content. -/
def demo_file_env_existing : FileEnv :=
  { demo_file_env with dst := some ⟨Kind.reg, 0o600, [9, 9, 9]⟩ }

/-- The same run as `demo_file_env`, except that the first call of `write` fails with
`EAGAIN`; a second call would succeed. -/
def demo_file_env_write_eagain : FileEnv :=
  { demo_file_env with write := fun k n => if k = 0 then Attempt.err EAGAIN else Attempt.ok n }

/-- The same run as `demo_file_env` under the creation mask 077. -/
def demo_file_env_umask : FileEnv := { demo_file_env with umask := 0o077 }

/-! ## Bookkeeping of the enumeration loop -/

/-- The identifier of the first thread of the batch under way: the threads from there up to
`next_tid` are the ones held in `threads[0 .. n_threads)`. -/
def LoopState.base (s : LoopState) : Nat := s.next_tid - s.n_threads

/-- What the loop keeps true of its variables between two iterations. -/
def LoopInv (s : LoopState) : Prop :=
  s.n_threads < MAX_THREADS ∧ s.threads.length = MAX_THREADS ∧ s.n_threads ≤ s.next_tid ∧
    s.base % MAX_THREADS = 0 ∧ ∀ i < s.n_threads, s.threads.getD i 0 = s.base + i

/-- What must hold at an event `ev` that happens while the threads `L` are running: at most
`MAX_THREADS` threads are running afterwards, the slot used lies inside the handle array, and
a thread is started only while every running thread belongs to its own batch. -/
def batch_ok (L : List Nat) (ev : Event) : Prop :=
  (live_step L ev).length ≤ MAX_THREADS ∧
  (∀ slot rc, ev = Event.create_failed slot rc → slot < MAX_THREADS) ∧
  (∀ slot tid, ev = Event.join slot tid → slot < MAX_THREADS) ∧
  (∀ slot tid h nt, ev = Event.create slot tid h nt →
    slot < MAX_THREADS ∧ ∀ j ∈ L, j / MAX_THREADS = tid / MAX_THREADS)

/-- What a stretch of the loop that leads from the variables `s` to the result `r` does. -/
structure LoopSpec (s : LoopState) (r : LoopResult) : Prop where
  inv : LoopInv r.state
  tid_le : s.next_tid ≤ r.state.next_tid
  base_le : s.base ≤ r.state.base
  points : at_every_event batch_ok (List.range' s.base s.n_threads) r.trace
  live_eq : live (List.range' s.base s.n_threads) r.trace
    = List.range' r.state.base r.state.n_threads
  created_eq : (created r.trace).map (fun c => c.1)
    = List.range' s.next_tid (r.state.next_tid - s.next_tid)
  joined_eq : joined r.trace = List.range' s.base (r.state.base - s.base)

/-- The variables after a successful `pthread_create` and `n_threads++`. -/
def LoopState.started (s : LoopState) : LoopState :=
  { threads := s.threads.set s.n_threads s.next_tid
    n_threads := s.n_threads + 1
    next_tid := s.next_tid + 1 }

/-! ## copy_file: the copy loop -/

theorem write_chunk_flushes (write : Nat → Nat → Attempt Nat) (buf : List Byte)
    (hwrite : ∀ k n, 0 < n → ∃ w, write k n = Attempt.ok w ∧ 1 ≤ w ∧ w ≤ n) :
    ∀ (fuel k off : Nat) (out : List Byte), off ≤ buf.length → buf.length - off < fuel →
      ∃ k1, write_chunk write buf fuel k off out = some (none, k1, out ++ buf.drop off) := by
  intro fuel
  induction fuel with
  | zero => intro k off out _ h; omega
  | succ fuel ih =>
    intro k off out hoff hfuel
    unfold write_chunk
    by_cases hlt : off < buf.length
    · obtain ⟨w, hw, hw1, hw2⟩ := hwrite k (buf.length - off) (by omega)
      simp only [hlt, if_true, hw]
      obtain ⟨k1, hk1⟩ := ih (k + 1) (off + w) (out ++ (buf.drop off).take w) (by omega) (by omega)
      refine ⟨k1, ?_⟩
      rw [hk1, List.append_assoc, ← List.drop_drop, List.take_append_drop]
    · have : buf.drop off = [] := List.drop_eq_nil_of_le (by omega)
      exact ⟨k, by simp [hlt, this]⟩

theorem copy_loop_copies (write : Nat → Nat → Attempt Nat) (fuel : Nat)
    (hwrite : ∀ k n, 0 < n → ∃ w, write k n = Attempt.ok w ∧ 1 ≤ w ∧ w ≤ n)
    (hfuel : COPY_BUF < fuel) :
    ∀ (chunks : List (List Byte)) (k : Nat) (out : List Byte),
      (∀ c ∈ chunks, 0 < c.length ∧ c.length ≤ COPY_BUF) →
      copy_loop write fuel (chunks.map Attempt.ok ++ [Attempt.ok []]) k out
        = some (LoopEnd.eof, out ++ chunks.flatten) := by
  intro chunks
  induction chunks with
  | nil => intro k out _; simp [copy_loop]
  | cons c cs ih =>
    intro k out hc
    obtain ⟨hpos, hle⟩ := hc c (List.mem_cons_self _ _)
    have htake : c.take COPY_BUF = c := List.take_of_length_le hle
    obtain ⟨k1, hk1⟩ := write_chunk_flushes write c hwrite fuel k 0 out (Nat.zero_le _)
      (by omega)
    simp only [List.map_cons, List.cons_append, copy_loop, htake, gt_iff_lt, hpos, if_true, hk1,
      List.drop_zero, List.append_eq]
    rw [ih k1 (out ++ c) (fun c1 h1 => hc c1 (List.mem_cons_of_mem _ h1))]
    simp

/-- C1: when the three opening steps succeed, the reads split the source into non-empty
chunks of at most 65536 bytes followed by a zero-byte read, and every write takes at least
one and at most the requested bytes, then with enough fuel `copy_file` returns, every step
having succeeded, and the destination file holds exactly the source bytes in order. -/
theorem copy_file_reproduces_source (fuel : Nat) (env : FileEnv) (chunks : List (List Byte))
    (st_mode n1 n2 n3 : Nat)
    (hsrc : retry_loop env.open_src = (some (Attempt.ok ()), n1))
    (hlstat : safe_lstat env.lstat = (some (Attempt.ok st_mode), n2))
    (hdst : retry_loop env.open_dst = (some (Attempt.ok ()), n3))
    (hchunks : ∀ c ∈ chunks, 0 < c.length ∧ c.length ≤ 65536)
    (hreads : env.reads = chunks.map Attempt.ok ++ [Attempt.ok []])
    (hwrite : ∀ k n, 0 < n → ∃ w, env.write k n = Attempt.ok w ∧ 1 ≤ w ∧ w ≤ n)
    (hfuel : 65536 < fuel) :
    copy_loop env.write fuel env.reads 0 [] = some (LoopEnd.eof, chunks.flatten) ∧
    ∃ r, copy_file fuel env = some r ∧ r.status = FileStatus.copied ∧
      r.dst.map Inode.data = some chunks.flatten ∧
      (r.dst.map fun i => i.data.length) = some chunks.flatten.length := by
  have hloop : copy_loop env.write fuel env.reads 0 [] = some (LoopEnd.eof, chunks.flatten) := by
    rw [hreads, copy_loop_copies env.write fuel hwrite hfuel chunks 0 [] hchunks]
    simp
  refine ⟨hloop, ?_⟩
  unfold copy_file
  simp only [hsrc, hlstat, hdst, hloop]
  refine ⟨_, rfl, rfl, ?_, ?_⟩ <;> cases env.dst <;> simp [set_data, open_creat_trunc]

theorem copy_file_reproduces_source_witness :
    copy_loop (fun _ n => Attempt.ok (if 1 < n then n - 1 else n)) 65537
        [Attempt.ok [1, 2, 3], Attempt.ok [4], Attempt.ok []] 0 []
      = some (LoopEnd.eof, [1, 2, 3, 4]) :=
  (copy_file_reproduces_source 65537
    ⟨[Attempt.ok ()], [Attempt.ok 0o100644], [Attempt.ok ()], 0o022, none,
      [Attempt.ok [1, 2, 3], Attempt.ok [4], Attempt.ok []],
      fun _ n => Attempt.ok (if 1 < n then n - 1 else n)⟩
    [[1, 2, 3], [4]] 0o100644 0 0 0 rfl rfl rfl (by decide) rfl
    (by
      intro k n hn
      refine ⟨_, rfl, ?_, ?_⟩ <;> split <;> omega)
    (by decide)).1

/-! ## copy_dir: the thread bookkeeping -/

theorem range_glue (a b c : Nat) (h1 : a ≤ b) (h2 : b ≤ c) :
    List.range' a (b - a) ++ List.range' b (c - b) = List.range' a (c - a) := by
  have := List.range'_append_1 a (b - a) (c - b)
  rw [show a + (b - a) = b by omega] at this
  rw [this]; congr 1; omega

theorem live_append (L : List Nat) (a b : List Event) : live L (a ++ b) = live (live L a) b := by
  simp [live, List.foldl_append]

theorem live_cons (L : List Nat) (ev : Event) (evs : List Event) :
    live L (ev :: evs) = live (live_step L ev) evs := rfl

theorem live_sleeps (L : List Nat) (n : Nat) : live L (sleeps n) = L := by
  induction n with
  | zero => rfl
  | succ n ih => simpa [sleeps, List.replicate_succ, live_cons, live_step] using ih

theorem created_append (a b : List Event) : created (a ++ b) = created a ++ created b := by
  simp [created, List.filterMap_append]

theorem joined_append (a b : List Event) : joined (a ++ b) = joined a ++ joined b := by
  simp [joined, List.filterMap_append]

theorem created_sleeps (n : Nat) : created (sleeps n) = [] := by
  induction n with
  | zero => rfl
  | succ n ih => simp [sleeps, List.replicate_succ, created]

theorem joined_sleeps (n : Nat) : joined (sleeps n) = [] := by
  induction n with
  | zero => rfl
  | succ n ih => simp [sleeps, List.replicate_succ, joined]

theorem at_every_event_append (P : List Nat → Event → Prop) (a b : List Event) :
    ∀ L, at_every_event P L (a ++ b) ↔ at_every_event P L a ∧ at_every_event P (live L a) b := by
  induction a with
  | nil => intro L; simp [at_every_event, live]
  | cons ev a ih => intro L; simp [at_every_event, ih, live_cons, and_assoc]

theorem at_every_event_sleeps (L : List Nat) (hL : L.length ≤ MAX_THREADS) (n : Nat) :
    at_every_event batch_ok L (sleeps n) := by
  induction n with
  | zero => simp [sleeps, at_every_event]
  | succ n ih =>
    simp only [sleeps, List.replicate_succ, at_every_event]
    exact ⟨⟨by simpa [live_step] using hL, by simp, by simp, by simp⟩, by simpa [live_step] using ih⟩

theorem join_all_eq (s : LoopState) (b : Nat) (h : ∀ i < s.n_threads, s.threads.getD i 0 = b + i) :
    join_all s = (List.range s.n_threads).map fun i => Event.join i (b + i) := by
  unfold join_all
  apply List.map_congr_left
  intro i hi
  rw [h i (List.mem_range.mp hi)]

theorem live_joins (b : Nat) : ∀ (n k : Nat) (M : List Nat),
    live (List.range' b n ++ M) ((List.range' k n).map fun i => Event.join i (b + (i - k))) = M := by
  intro n
  induction n generalizing b with
  | zero => intro k M; simp [live]
  | succ n ih =>
    intro k M
    simp only [List.range'_succ, List.map_cons, live_cons, live_step, List.cons_append,
      Nat.sub_self, Nat.add_zero, List.erase_cons_head]
    have hmap : (List.range' (k + 1) n).map (fun i => Event.join i (b + (i - k)))
        = (List.range' (k + 1) n).map (fun i => Event.join i (b + 1 + (i - (k + 1)))) := by
      apply List.map_congr_left
      intro i hi
      have := (List.mem_range'_1.mp hi).1
      congr 1; omega
    rw [hmap]
    exact ih (b + 1) (k + 1) M

theorem at_every_event_live_le : ∀ (evs : List Event) (L : List Nat), L.length ≤ MAX_THREADS →
    at_every_event batch_ok L evs → (live L evs).length ≤ MAX_THREADS := by
  intro evs
  induction evs with
  | nil => intro L hL _; exact hL
  | cons ev evs ih => intro L _ h; exact ih _ h.1.1 h.2

theorem at_every_event_joins : ∀ (evs : List Event) (L : List Nat), L.length ≤ MAX_THREADS →
    (∀ ev ∈ evs, ∃ slot tid, ev = Event.join slot tid ∧ slot < MAX_THREADS) →
    at_every_event batch_ok L evs := by
  intro evs
  induction evs with
  | nil => intro L _ _; trivial
  | cons ev evs ih =>
    intro L hL h
    obtain ⟨slot, tid, rfl, hslot⟩ := h ev (List.mem_cons_self _ _)
    have hlen : (L.erase tid).length ≤ MAX_THREADS := le_trans (List.length_erase_le _ _) hL
    refine ⟨⟨by simpa [live_step] using hlen, by simp, ?_, by simp⟩, ?_⟩
    · intro slot1 tid1 h1
      cases h1
      exact hslot
    · exact ih _ hlen (fun ev1 h1 => h ev1 (List.mem_cons_of_mem _ h1))

theorem flush_spec (q : LoopState) (b : Nat) (hn : q.n_threads ≤ MAX_THREADS)
    (h : ∀ i < q.n_threads, q.threads.getD i 0 = b + i) :
    at_every_event batch_ok (List.range' b q.n_threads) (join_all q) ∧
    live (List.range' b q.n_threads) (join_all q) = [] ∧
    joined (join_all q) = List.range' b q.n_threads ∧ created (join_all q) = [] := by
  have hj := join_all_eq q b h
  refine ⟨?_, ?_, ?_, ?_⟩
  · apply at_every_event_joins
    · simpa using hn
    · intro ev hev
      rw [hj] at hev
      obtain ⟨i, hi, rfl⟩ := List.mem_map.mp hev
      exact ⟨i, b + i, rfl, lt_of_lt_of_le (List.mem_range.mp hi) hn⟩
  · have := live_joins b q.n_threads 0 []
    simpa [hj, List.range_eq_range'] using this
  · rw [hj, List.range'_eq_map_range]
    simp only [joined, List.filterMap_map, Function.comp_def]
    exact congrFun (List.filterMap_eq_map fun x => b + x) _
  · rw [hj]
    simp [created, List.filterMap_map, Function.comp_def]

theorem LoopSpec.refl (s : LoopState) (b : Bool) (h : LoopInv s) : LoopSpec s ⟨[], s, b⟩ where
  inv := h
  tid_le := le_refl _
  base_le := le_refl _
  points := trivial
  live_eq := rfl
  created_eq := by simp [created]
  joined_eq := by simp [joined]

theorem LoopSpec.after {s s1 : LoopState} {evs : List Event} {b : Bool} {r : LoopResult}
    (h1 : LoopSpec s ⟨evs, s1, b⟩) (h2 : LoopSpec s1 r) : LoopSpec s (r.after evs) where
  inv := h2.inv
  tid_le := le_trans h1.tid_le h2.tid_le
  base_le := le_trans h1.base_le h2.base_le
  points := by
    have := h1.live_eq
    simp only at this
    exact (at_every_event_append _ _ _ _).mpr ⟨h1.points, by rw [this]; exact h2.points⟩
  live_eq := by
    have := h1.live_eq
    simp only at this
    simp only [LoopResult.after, live_append, this]
    exact h2.live_eq
  created_eq := by
    have e1 := h1.created_eq
    have e2 := h2.created_eq
    simp only at e1
    simp only [LoopResult.after, created_append, List.map_append, e1, e2]
    exact range_glue _ _ _ h1.tid_le h2.tid_le
  joined_eq := by
    have e1 := h1.joined_eq
    have e2 := h2.joined_eq
    simp only at e1
    simp only [LoopResult.after, joined_append, e1, e2]
    exact range_glue _ _ _ h1.base_le h2.base_le

theorem spec_sleeps (s : LoopState) (b : Bool) (n : Nat) (h : LoopInv s) :
    LoopSpec s ⟨sleeps n, s, b⟩ where
  inv := h
  tid_le := le_refl _
  base_le := le_refl _
  points := at_every_event_sleeps _ (by simpa using le_of_lt h.1) n
  live_eq := live_sleeps _ _
  created_eq := by simp [created_sleeps]
  joined_eq := by simp [joined_sleeps]

theorem spec_create_failed (s : LoopState) (b : Bool) (rc : Nat) (h : LoopInv s) :
    LoopSpec s ⟨[Event.create_failed s.n_threads rc], s, b⟩ where
  inv := h
  tid_le := le_refl _
  base_le := le_refl _
  points := by
    refine ⟨⟨by simpa [live_step] using le_of_lt h.1, ?_, by simp, by simp⟩, trivial⟩
    intro slot rc1 h1
    cases h1
    exact h.1
  live_eq := rfl
  created_eq := by simp [created]
  joined_eq := by simp [joined]

theorem started_slots (s : LoopState) (h : LoopInv s) :
    ∀ i < s.started.n_threads, s.started.threads.getD i 0 = s.base + i := by
  obtain ⟨h1, h2, h3, _, h5⟩ := h
  intro i hi
  simp only [LoopState.started] at hi ⊢
  rw [List.getD_eq_getElem?_getD, List.getElem?_set]
  by_cases hin : s.n_threads = i
  · subst hin
    simp only [if_true, h2, h1, LoopState.base, Option.getD_some]
    omega
  · simp only [hin, if_false]
    rw [← List.getD_eq_getElem?_getD]
    exact h5 i (by omega)

theorem create_ok (s : LoopState) (h : LoopInv s) (hd : Handler) (nt : task_t) :
    batch_ok (List.range' s.base s.n_threads) (Event.create s.n_threads s.next_tid hd nt) := by
  obtain ⟨h1, _, h3, h4, _⟩ := h
  simp only [batch_ok, MAX_THREADS, LoopState.base] at *
  refine ⟨by simp [live_step]; omega, by simp, by simp, ?_⟩
  intro slot tid hd1 nt1 heq
  cases heq
  refine ⟨h1, ?_⟩
  intro j hj
  have := List.mem_range'_1.mp hj
  omega

theorem spec_create (s : LoopState) (b : Bool) (hd : Handler) (nt : task_t) (h : LoopInv s)
    (hn : s.n_threads + 1 ≠ MAX_THREADS) :
    LoopSpec s ⟨[Event.create s.n_threads s.next_tid hd nt], s.started, b⟩ where
  inv := by
    refine ⟨?_, ?_, ?_, ?_, ?_⟩
    · have := h.1
      simp only [LoopState.started, MAX_THREADS] at *
      omega
    · simpa [LoopState.started] using h.2.1
    · simpa [LoopState.started] using h.2.2.1
    · have := h.2.2.2.1
      simpa [LoopState.started, LoopState.base] using this
    · have := started_slots s h
      simpa [LoopState.started, LoopState.base] using this
  tid_le := by simp [LoopState.started]
  base_le := by simp [LoopState.started, LoopState.base]
  points := ⟨create_ok s h hd nt, trivial⟩
  live_eq := by
    have := h.2.2.1
    simp only [live, List.foldl, live_step, LoopState.started, LoopState.base,
      Nat.add_sub_add_right]
    rw [List.range'_concat]
    simp only [Nat.one_mul]
    congr 2
    omega
  created_eq := by simp [created, LoopState.started]
  joined_eq := by simp [joined, LoopState.started, LoopState.base]

theorem spec_create_flush (s : LoopState) (b : Bool) (hd : Handler) (nt : task_t)
    (h : LoopInv s) (hn : s.n_threads + 1 = MAX_THREADS) :
    LoopSpec s ⟨Event.create s.n_threads s.next_tid hd nt :: join_all s.started,
      { s.started with n_threads := 0 }, b⟩ := by
  have hslots := started_slots s h
  have hfl := flush_spec s.started s.base (by simp [LoopState.started, hn]) hslots
  have hL : List.range' s.base s.n_threads ++ [s.next_tid]
      = List.range' s.base s.started.n_threads := by
    have := h.2.2.1
    simp only [LoopState.started, LoopState.base]
    rw [List.range'_concat]
    simp only [Nat.one_mul]
    congr 2
    omega
  obtain ⟨h1, h2, h3, h4, _⟩ := h
  refine ⟨?_, ?_, ?_, ?_, ?_, ?_, ?_⟩
  · refine ⟨by simp [MAX_THREADS], by simpa [LoopState.started] using h2, Nat.zero_le _, ?_, ?_⟩
    · simp only [MAX_THREADS, LoopState.base, LoopState.started] at *
      omega
    · intro i hi
      simp at hi
  · simp [LoopState.started]
  · simp only [LoopState.base, LoopState.started]
    omega
  · refine ⟨create_ok s ⟨h1, h2, h3, h4, by assumption⟩ hd nt, ?_⟩
    simp only [live_step]
    rw [hL]
    exact hfl.1
  · simp only [live_cons, live_step]
    rw [hL, hfl.2.1]
    simp
  · simp only [created, List.filterMap_cons] at hfl ⊢
    rw [hfl.2.2.2]
    simp [LoopState.started]
  · simp only [joined, List.filterMap_cons] at hfl ⊢
    rw [hfl.2.2.1]
    simp only [MAX_THREADS, LoopState.base, LoopState.started] at *
    congr 1
    omega

theorem copy_dir_loop_spec (PATH_MAX : Nat) (t : task_t) :
    ∀ (stream : List ReadDir) (s : LoopState), LoopInv s →
      LoopSpec s (copy_dir_loop PATH_MAX t stream s) := by
  intro stream
  induction stream with
  | nil => intro s h; exact LoopSpec.refl s true h
  | cons x rest ih =>
    intro s h
    cases x with
    | error ret => exact LoopSpec.refl s true h
    | entry e =>
      unfold copy_dir_loop
      by_cases hdot : e.d_name = ['.'] ∨ e.d_name = ['.', '.']
      · rw [if_pos hdot]
        exact ih s h
      rw [if_neg hdot]
      by_cases hlong : (t.src ++ '/' :: e.d_name).length ≥ PATH_MAX
          ∨ (t.dst ++ '/' :: e.d_name).length ≥ PATH_MAX
      · rw [if_pos hlong]
        exact ih s h
      rw [if_neg hlong]
      · split
        · exact spec_sleeps s false _ h
        · exact LoopSpec.after (spec_sleeps s true _ h) (ih s h)
        · rename_i st_mode n _
          by_cases hty : (!S_ISDIR st_mode && !S_ISREG st_mode) = true
          · rw [if_pos hty]
            exact LoopSpec.after (spec_sleeps s true _ h) (ih s h)
          rw [if_neg hty]
          by_cases hm : (!e.malloc_ok) = true
          · rw [if_pos hm]
            exact LoopSpec.after (spec_sleeps s true _ h) (ih s h)
          rw [if_neg hm]
          by_cases hprc : e.prc ≠ 0
          · rw [if_pos hprc]
            exact LoopSpec.after
              (LoopSpec.after (spec_sleeps s true _ h) (spec_create_failed s true _ h)) (ih s h)
          rw [if_neg hprc]
          by_cases hfull : s.n_threads + 1 = MAX_THREADS
          · simp only [if_pos hfull]
            exact LoopSpec.after
              (LoopSpec.after (spec_sleeps s true _ h) (spec_create_flush s true _ _ h hfull))
              (ih _ (spec_create_flush s true _ _ h hfull).inv)
          · simp only [if_neg hfull]
            exact LoopSpec.after
              (LoopSpec.after (spec_sleeps s true _ h) (spec_create s true _ _ h hfull))
              (ih _ (spec_create s true _ _ h hfull).inv)

theorem init_inv : LoopInv init_state := by
  refine ⟨by decide, by decide, by decide, by decide, ?_⟩
  intro i hi
  simp [init_state] at hi

theorem init_base : init_state.base = 0 := rfl

theorem init_n_threads : init_state.n_threads = 0 := rfl

theorem init_next_tid : init_state.next_tid = 0 := rfl

theorem copy_dir_body_points (PATH_MAX : Nat) (t : task_t) (stream : List ReadDir) :
    at_every_event batch_ok [] (copy_dir_body PATH_MAX t stream).trace := by
  have h := copy_dir_loop_spec PATH_MAX t stream init_state init_inv
  have hp := h.points
  have hl := h.live_eq
  rw [init_base, init_n_threads, List.range'_zero] at hp hl
  unfold copy_dir_body
  simp only
  split
  · refine (at_every_event_append _ _ _ _).mpr ⟨hp, ?_⟩
    rw [hl]
    exact (flush_spec _ _ (le_of_lt h.inv.1) h.inv.2.2.2.2).1
  · exact hp

theorem copy_dir_body_joins (PATH_MAX : Nat) (t : task_t) (stream : List ReadDir)
    (hret : (copy_dir_loop PATH_MAX t stream init_state).returned = true) :
    (copy_dir_body PATH_MAX t stream).returned = true ∧
    created (copy_dir_body PATH_MAX t stream).trace
      = created (copy_dir_loop PATH_MAX t stream init_state).trace ∧
    (created (copy_dir_body PATH_MAX t stream).trace).map (fun c => c.1)
      = List.range (created (copy_dir_body PATH_MAX t stream).trace).length ∧
    joined (copy_dir_body PATH_MAX t stream).trace
      = List.range (created (copy_dir_body PATH_MAX t stream).trace).length ∧
    live [] (copy_dir_body PATH_MAX t stream).trace = [] := by
  have h := copy_dir_loop_spec PATH_MAX t stream init_state init_inv
  have hc := h.created_eq
  have hj := h.joined_eq
  have hl := h.live_eq
  have hfl := flush_spec _ _ (le_of_lt h.inv.1) h.inv.2.2.2.2
  have hle := h.inv.2.2.1
  have hbody : (copy_dir_body PATH_MAX t stream).trace
      = (copy_dir_loop PATH_MAX t stream init_state).trace
        ++ join_all (copy_dir_loop PATH_MAX t stream init_state).state := by
    simp [copy_dir_body, hret]
  have hrb : (copy_dir_body PATH_MAX t stream).returned = true := by
    simp [copy_dir_body, hret]
  rw [init_base, init_n_threads, List.range'_zero] at hl
  rw [init_base, Nat.sub_zero] at hj
  rw [init_next_tid, Nat.sub_zero] at hc
  generalize copy_dir_body PATH_MAX t stream = rb at *
  generalize copy_dir_loop PATH_MAX t stream init_state = r at *
  have hlen : (created r.trace).length = r.state.next_tid := by
    have := congrArg List.length hc
    simpa using this
  refine ⟨hrb, ?_, ?_, ?_, ?_⟩
  · rw [hbody, created_append, hfl.2.2.2, List.append_nil]
  · rw [hbody, created_append, hfl.2.2.2, List.append_nil, hlen, hc, List.range_eq_range']
  · rw [hbody, created_append, hfl.2.2.2, List.append_nil, hlen, joined_append, hj, hfl.2.2.1,
      List.range_eq_range']
    have := range_glue 0 r.state.base r.state.next_tid (Nat.zero_le _) (Nat.sub_le _ _)
    simp only [LoopState.base, Nat.sub_zero] at this ⊢
    rw [← this]
    congr 2
    omega
  · rw [hbody, live_append, hl]
    exact hfl.2.1

theorem created_cons_create (slot tid : Nat) (h : Handler) (nt : task_t) (l : List Event) :
    created (Event.create slot tid h nt :: l) = (tid, h, nt) :: created l := rfl

theorem created_join_all (q : LoopState) : created (join_all q) = [] := by
  simp [created, join_all, List.filterMap_map, Function.comp_def]

theorem is_dot_iff (e : DirEnt) :
    e.is_dot = true ↔ (e.d_name = ['.'] ∨ e.d_name = ['.', '.']) := by
  simp [DirEnt.is_dot]

theorem after_returned (evs : List Event) (r : LoopResult) :
    (r.after evs).returned = r.returned := rfl

theorem after_trace (evs : List Event) (r : LoopResult) :
    (r.after evs).trace = evs ++ r.trace := rfl

theorem copy_dir_loop_tasks (PATH_MAX : Nat) (t : task_t) :
    ∀ (ents : List DirEnt) (s : LoopState),
      (∀ e ∈ ents, e.is_dot = false →
        (t.src ++ '/' :: e.d_name).length < PATH_MAX ∧
        (t.dst ++ '/' :: e.d_name).length < PATH_MAX) →
      (∀ e ∈ ents, e.is_dot = false → ∃ m k, safe_lstat e.lstat = (some (Attempt.ok m), k)) →
      (∀ e ∈ ents, e.eligible = true → e.malloc_ok = true) →
      (∀ e ∈ ents, e.eligible = true → e.prc = 0) →
      (copy_dir_loop PATH_MAX t (ents.map ReadDir.entry) s).returned = true ∧
      (created (copy_dir_loop PATH_MAX t (ents.map ReadDir.entry) s).trace).map (fun c => c.2)
        = (ents.filter DirEnt.eligible).map (child_task t) := by
  intro ents
  induction ents with
  | nil => intro s _ _ _ _; simp [copy_dir_loop, created]
  | cons e ents ih =>
    intro s hfit hlstat hmalloc hcreate
    have ih1 := fun s1 => ih s1 (fun e1 h1 => hfit e1 (List.mem_cons_of_mem _ h1))
      (fun e1 h1 => hlstat e1 (List.mem_cons_of_mem _ h1))
      (fun e1 h1 => hmalloc e1 (List.mem_cons_of_mem _ h1))
      (fun e1 h1 => hcreate e1 (List.mem_cons_of_mem _ h1))
    simp only [List.map_cons]
    unfold copy_dir_loop
    by_cases hdot : e.d_name = ['.'] ∨ e.d_name = ['.', '.']
    · have hel : e.eligible = false := by simp [DirEnt.eligible, (is_dot_iff e).mpr hdot]
      rw [if_pos hdot, List.filter_cons_of_neg (by simp [hel])]
      exact ih1 s
    rw [if_neg hdot]
    have hnd : e.is_dot = false := by
      cases h : e.is_dot
      · rfl
      · exact absurd ((is_dot_iff e).mp h) hdot
    obtain ⟨hf1, hf2⟩ := hfit e (List.mem_cons_self _ _) hnd
    obtain ⟨m, k, hm⟩ := hlstat e (List.mem_cons_self _ _) hnd
    have hst : e.st_mode = m := by simp [DirEnt.st_mode, hm]
    rw [if_neg (by omega)]
    simp only [hm]
    by_cases hty : (!S_ISDIR m && !S_ISREG m) = true
    · have hel : e.eligible = false := by
        simp only [Bool.and_eq_true, Bool.not_eq_eq_eq_not, Bool.not_true] at hty
        simp [DirEnt.eligible, hst, hty.1, hty.2]
      rw [if_pos hty, List.filter_cons_of_neg (by simp [hel])]
      simp only [after_returned, after_trace, created_append, created_sleeps, List.nil_append]
      exact ih1 s
    have hel : e.eligible = true := by
      simp only [Bool.and_eq_true, Bool.not_eq_eq_eq_not, Bool.not_true, not_and,
        Bool.not_eq_false] at hty
      simp only [DirEnt.eligible, hnd, hst, Bool.not_false, Bool.true_and, Bool.or_eq_true]
      cases hd : S_ISDIR m
      · exact Or.inr (hty hd)
      · exact Or.inl rfl
    rw [if_neg hty, if_neg (by simp [hmalloc e (List.mem_cons_self _ _) hel]),
      if_neg (by simp [hcreate e (List.mem_cons_self _ _) hel]), List.filter_cons_of_pos hel]
    simp only [List.map_cons]
    by_cases hfull : s.n_threads + 1 = MAX_THREADS
    · simp only [if_pos hfull, after_returned, after_trace, created_append, created_sleeps,
        List.nil_append, created_cons_create, created_join_all, List.map_cons, child_task, hst]
      exact ⟨(ih1 _).1, congrArg _ (ih1 _).2⟩
    · simp only [if_neg hfull, after_returned, after_trace, created_append, created_sleeps,
        List.nil_append, created_cons_create, List.map_cons, child_task, hst]
      exact ⟨(ih1 _).1, congrArg _ (ih1 _).2⟩

theorem copy_dir_enumerates (PATH_MAX : Nat) (t : task_t) (env : DirEnv) (n : Nat)
    (hopen : retry_loop env.opendir = (some (Attempt.ok ()), n))
    (hmkdir : mkdir_failed (mkdir env.mkdir_fault env.umask 0o755 env.dst).1 = false)
    (hbuf : env.entry_buf_ok = true)
    (hret : (copy_dir_body PATH_MAX t env.stream).returned = true) :
    copy_dir PATH_MAX t env
      = ⟨sleeps n ++ [Event.opendir,
            Event.mkdir 0o755 (mkdir env.mkdir_fault env.umask 0o755 env.dst).1]
          ++ (copy_dir_body PATH_MAX t env.stream).trace ++ [Event.closedir],
        (mkdir env.mkdir_fault env.umask 0o755 env.dst).2, true⟩ := by
  unfold copy_dir
  simp only [hopen, hmkdir, hbuf, hret]
  simp

/-- C2: when the directory is opened and enumerated without error, the composed paths of
the entries other than `.` and `..` fit below `PATH_MAX`, `lstat` succeeds for them, and
`malloc` and `pthread_create` succeed, then `copy_dir` returns and the threads it started
are, in enumeration order, exactly the entries other than `.` and `..` that are directories
or regular files, each with the handler for its type and the two paths extended by the
name; the threads are numbered 0, 1, 2, ..., the joins made are the joins of those same
threads, each once, and no thread is left running. -/
theorem copy_dir_one_task_per_eligible_child (PATH_MAX : Nat) (t : task_t) (env : DirEnv)
    (ents : List DirEnt) (n : Nat)
    (hopen : retry_loop env.opendir = (some (Attempt.ok ()), n))
    (hmkdir : mkdir_failed (mkdir env.mkdir_fault env.umask 0o755 env.dst).1 = false)
    (hbuf : env.entry_buf_ok = true)
    (hstream : env.stream = ents.map ReadDir.entry)
    (hfit : ∀ e ∈ ents, e.is_dot = false →
      (t.src ++ '/' :: e.d_name).length < PATH_MAX ∧
      (t.dst ++ '/' :: e.d_name).length < PATH_MAX)
    (hlstat : ∀ e ∈ ents, e.is_dot = false →
      ∃ m k, safe_lstat e.lstat = (some (Attempt.ok m), k))
    (hmalloc : ∀ e ∈ ents, e.eligible = true → e.malloc_ok = true)
    (hcreate : ∀ e ∈ ents, e.eligible = true → e.prc = 0) :
    (copy_dir PATH_MAX t env).returned = true ∧
    (created (copy_dir PATH_MAX t env).trace).map (fun c => c.2)
      = (ents.filter DirEnt.eligible).map (child_task t) ∧
    (created (copy_dir PATH_MAX t env).trace).map (fun c => c.1)
      = List.range (ents.filter DirEnt.eligible).length ∧
    joined (copy_dir PATH_MAX t env).trace
      = List.range (ents.filter DirEnt.eligible).length ∧
    live [] (copy_dir PATH_MAX t env).trace = [] := by
  have hloop := copy_dir_loop_tasks PATH_MAX t ents init_state hfit hlstat hmalloc hcreate
  rw [← hstream] at hloop
  obtain ⟨hb1, hb2, hb3, hb4, hb5⟩ := copy_dir_body_joins PATH_MAX t env.stream hloop.1
  have hlen : (created (copy_dir_body PATH_MAX t env.stream).trace).length
      = (ents.filter DirEnt.eligible).length := by
    have := congrArg List.length hloop.2
    rw [← hb2] at this
    simpa using this
  have hc : created (copy_dir PATH_MAX t env).trace
      = created (copy_dir_body PATH_MAX t env.stream).trace := by
    rw [copy_dir_enumerates PATH_MAX t env n hopen hmkdir hbuf hb1]
    simp only [created_append, created_sleeps, List.nil_append]
    change [] ++ created _ ++ [] = _
    simp
  have hj : joined (copy_dir PATH_MAX t env).trace
      = joined (copy_dir_body PATH_MAX t env.stream).trace := by
    rw [copy_dir_enumerates PATH_MAX t env n hopen hmkdir hbuf hb1]
    simp only [joined_append, joined_sleeps, List.nil_append]
    change [] ++ joined _ ++ [] = _
    simp
  have hl : live [] (copy_dir PATH_MAX t env).trace
      = live [] (copy_dir_body PATH_MAX t env.stream).trace := by
    rw [copy_dir_enumerates PATH_MAX t env n hopen hmkdir hbuf hb1]
    simp only [live_append, live_sleeps, live_cons, live_step]
    rfl
  refine ⟨?_, ?_, ?_, ?_, ?_⟩
  · rw [copy_dir_enumerates PATH_MAX t env n hopen hmkdir hbuf hb1]
  · rw [hc, hb2, hloop.2]
  · rw [hc, hb3, hlen]
  · rw [hj, hb4, hlen]
  · rw [hl, hb5]

theorem copy_dir_points (PATH_MAX : Nat) (t : task_t) (env : DirEnv) :
    at_every_event batch_ok [] (copy_dir PATH_MAX t env).trace := by
  have hquiet : ∀ (n : Nat) (r : Attempt Unit) (tr : List Event),
      at_every_event batch_ok [] tr →
      at_every_event batch_ok []
        (sleeps n ++ [Event.opendir, Event.mkdir 0o755 r] ++ tr) := by
    intro n r tr htr
    rw [List.append_assoc]
    refine (at_every_event_append _ _ _ _).mpr ⟨at_every_event_sleeps _ (by simp) n, ?_⟩
    rw [live_sleeps]
    refine ⟨⟨by simp [live_step], by simp, by simp, by simp⟩,
      ⟨by simp [live_step], by simp, by simp, by simp⟩, ?_⟩
    exact htr
  have hbody := copy_dir_body_points PATH_MAX t env.stream
  unfold copy_dir
  split
  · exact at_every_event_sleeps _ (by simp) _
  · exact at_every_event_sleeps _ (by simp) _
  · simp only
    split_ifs
    · simpa using hquiet _ _ [] trivial
    · simpa using hquiet _ _ [] trivial
    · rw [List.append_assoc]
      apply hquiet
      refine (at_every_event_append _ _ _ _).mpr ⟨hbody, ?_⟩
      exact ⟨⟨by simpa [live_step] using
        (at_every_event_live_le _ _ (by simp) hbody), by simp, by simp, by simp⟩, trivial⟩
    · exact hquiet _ _ _ hbody

theorem copy_dir_created (PATH_MAX : Nat) (t : task_t) (env : DirEnv) :
    created (copy_dir PATH_MAX t env).trace = [] ∨
    created (copy_dir PATH_MAX t env).trace
      = created (copy_dir_loop PATH_MAX t env.stream init_state).trace := by
  have hbody : created (copy_dir_body PATH_MAX t env.stream).trace
      = created (copy_dir_loop PATH_MAX t env.stream init_state).trace := by
    unfold copy_dir_body
    simp only
    split
    · rw [created_append, created_join_all, List.append_nil]
    · rfl
  have hpre : ∀ (n : Nat) (r : Attempt Unit) (tr : List Event),
      created (sleeps n ++ [Event.opendir, Event.mkdir 0o755 r] ++ tr) = created tr := by
    intro n r tr
    rw [created_append, created_append, created_sleeps]
    rfl
  unfold copy_dir
  split
  · exact Or.inl (created_sleeps _)
  · exact Or.inl (created_sleeps _)
  · simp only
    split_ifs
    · left
      simpa using hpre _ _ []
    · left
      simpa using hpre _ _ []
    · right
      rw [List.append_assoc, hpre, created_append, hbody]
      exact List.append_nil _
    · right
      rw [hpre, hbody]

theorem copy_dir_created_tids (PATH_MAX : Nat) (t : task_t) (env : DirEnv) :
    (created (copy_dir PATH_MAX t env).trace).map (fun c => c.1)
      = List.range (created (copy_dir PATH_MAX t env).trace).length := by
  rcases copy_dir_created PATH_MAX t env with h | h
  · rw [h]
    rfl
  · rw [h]
    have hc := (copy_dir_loop_spec PATH_MAX t env.stream init_state init_inv).created_eq
    rw [init_next_tid, Nat.sub_zero] at hc
    have hlen := congrArg List.length hc
    simp only [List.length_map, List.length_range'] at hlen
    rw [hc, hlen, List.range_eq_range']

/-- C4: the threads that one run of `copy_dir` starts are numbered 0, 1, 2, ... in the
order in which they are started, so that batch `N` is made of the threads `64 N` to
`64 N + 63`.  At every event `ev` of the run, whatever the directory stream hands over and
whatever `lstat`, `malloc` and `pthread_create` answer, at most 64 threads of this
invocation are started and not yet joined once `ev` has happened, every slot of the handle
array that is written or read lies below 64, and a thread is started only when every thread
still running belongs to the same batch as the new one, so that all the threads of the
batches before have been joined. -/
theorem copy_dir_batches_bounded (PATH_MAX : Nat) (t : task_t) (env : DirEnv)
    (pre : List Event) (ev : Event) (post : List Event)
    (hev : (copy_dir PATH_MAX t env).trace = pre ++ ev :: post) :
    (created (copy_dir PATH_MAX t env).trace).map (fun c => c.1)
      = List.range (created (copy_dir PATH_MAX t env).trace).length ∧
    (live [] (pre ++ [ev])).length ≤ 64 ∧
    (∀ slot rc, ev = Event.create_failed slot rc → slot < 64) ∧
    (∀ slot tid, ev = Event.join slot tid → slot < 64) ∧
    (∀ slot tid h nt, ev = Event.create slot tid h nt →
      slot < 64 ∧ ∀ j ∈ live [] pre, j / 64 = tid / 64) := by
  have h := copy_dir_points PATH_MAX t env
  rw [hev] at h
  have h1 := ((at_every_event_append _ _ _ _).mp h).2.1
  exact ⟨copy_dir_created_tids PATH_MAX t env,
    by simpa [batch_ok, MAX_THREADS, live_append, live_cons, live] using h1⟩

/-- C6 (amended): when `copy_dir` starts a child thread, the call `mkdir(t->dst, 0755)` has
been made before, after `opendir`, and has returned success or `EEXIST`; on success the
destination is a new directory whose read, write and execute bits are those of 0755 less
the bits of the creation mask, on `EEXIST` it is whatever was at the path before,
unchanged, of any type and mode. -/
theorem copy_dir_mkdir_before_children (PATH_MAX : Nat) (t : task_t) (env : DirEnv)
    (slot tid : Nat) (h : Handler) (nt : task_t)
    (hcreate : Event.create slot tid h nt ∈ (copy_dir PATH_MAX t env).trace) :
    (∃ n post, (copy_dir PATH_MAX t env).trace
        = sleeps n ++ Event.opendir
          :: Event.mkdir 0o755 (mkdir env.mkdir_fault env.umask 0o755 env.dst).1 :: post
      ∧ Event.create slot tid h nt ∈ post) ∧
    ((mkdir env.mkdir_fault env.umask 0o755 env.dst).1 = Attempt.ok ()
      ∨ (mkdir env.mkdir_fault env.umask 0o755 env.dst).1 = Attempt.err EEXIST) ∧
    ((mkdir env.mkdir_fault env.umask 0o755 env.dst).1 = Attempt.ok () →
      (copy_dir PATH_MAX t env).dst = some ⟨Kind.dir, creat_perm env.umask 0o755, []⟩) ∧
    ((mkdir env.mkdir_fault env.umask 0o755 env.dst).1 = Attempt.err EEXIST →
      (copy_dir PATH_MAX t env).dst = env.dst) := by
  have hns : ∀ n, Event.create slot tid h nt ∉ sleeps n := by
    intro n hmem
    have := List.eq_of_mem_replicate hmem
    cases this
  have hmk : ∀ (f : Option Nat) (u : Nat) (d : Option Inode),
      ((mkdir f u 0o755 d).1 = Attempt.ok () →
        (mkdir f u 0o755 d).2 = some ⟨Kind.dir, creat_perm u 0o755, []⟩) ∧
      ((mkdir f u 0o755 d).1 = Attempt.err EEXIST → (mkdir f u 0o755 d).2 = d) ∧
      (mkdir_failed (mkdir f u 0o755 d).1 = false →
        (mkdir f u 0o755 d).1 = Attempt.ok () ∨ (mkdir f u 0o755 d).1 = Attempt.err EEXIST) := by
    intro f u d
    cases d <;> cases f <;> simp [mkdir, mkdir_failed]
  obtain ⟨hm1, hm2, hm3⟩ := hmk env.mkdir_fault env.umask env.dst
  unfold copy_dir at hcreate ⊢
  split at hcreate
  · exact absurd hcreate (hns _)
  · exact absurd hcreate (hns _)
  · rename_i n heq
    simp only [heq]
    simp only at hcreate
    split_ifs at hcreate with hf hb hr
    · simp [hns] at hcreate
    · simp [hns] at hcreate
    · have hmem : Event.create slot tid h nt
          ∈ (copy_dir_body PATH_MAX t env.stream).trace ++ [Event.closedir] := by
        simpa [hns] using hcreate
      simp only [hf, hb, hr]
      refine ⟨⟨n, _, ?_, hmem⟩, hm3 (by simpa using hf), ?_, ?_⟩
      · simp
      · simpa using hm1
      · simpa using hm2
    · have hmem : Event.create slot tid h nt ∈ (copy_dir_body PATH_MAX t env.stream).trace := by
        simpa [hns] using hcreate
      simp only [hf, hb, hr]
      refine ⟨⟨n, _, ?_, hmem⟩, hm3 (by simpa using hf), ?_, ?_⟩
      · simp
      · simpa using hm1
      · simpa using hm2

theorem copy_dir_one_task_per_eligible_child_witness :
    (copy_dir 4096 demo_task demo_dir_env).returned = true ∧
    (created (copy_dir 4096 demo_task demo_dir_env).trace).map (fun c => c.2)
      = [(Handler.copy_file, ⟨['/', 's', '/', 'f'], ['/', 'd', '/', 'f']⟩),
         (Handler.copy_dir, ⟨['/', 's', '/', 'g'], ['/', 'd', '/', 'g']⟩)] ∧
    (created (copy_dir 4096 demo_task demo_dir_env).trace).map (fun c => c.1) = [0, 1] ∧
    joined (copy_dir 4096 demo_task demo_dir_env).trace = [0, 1] ∧
    live [] (copy_dir 4096 demo_task demo_dir_env).trace = [] :=
  copy_dir_one_task_per_eligible_child 4096 demo_task demo_dir_env demo_entries 0 rfl rfl rfl rfl
    (by decide)
    (by
      intro e he _
      simp only [demo_entries, List.mem_cons, List.mem_singleton, List.not_mem_nil,
        or_false] at he
      rcases he with rfl | rfl | rfl | rfl | rfl <;> exact ⟨_, _, rfl⟩)
    (by decide) (by decide)

theorem copy_dir_batches_bounded_witness :
    (live []
      [Event.opendir, Event.mkdir 0o755 (Attempt.ok ()), Event.sleep 1,
        Event.create 0 0 Handler.copy_file ⟨['/', 's', '/', 'f'], ['/', 'd', '/', 'f']⟩,
        Event.create 1 1 Handler.copy_dir ⟨['/', 's', '/', 'g'], ['/', 'd', '/', 'g']⟩]).length
      ≤ 64 :=
  (copy_dir_batches_bounded 4096 demo_task demo_dir_env
    [Event.opendir, Event.mkdir 0o755 (Attempt.ok ()), Event.sleep 1,
      Event.create 0 0 Handler.copy_file ⟨['/', 's', '/', 'f'], ['/', 'd', '/', 'f']⟩]
    (Event.create 1 1 Handler.copy_dir ⟨['/', 's', '/', 'g'], ['/', 'd', '/', 'g']⟩)
    [Event.join 0 0, Event.join 1 1, Event.closedir] rfl).2.1

/-- C6, as stated, fails: with `/d` there already as a directory of mode 0700, `mkdir`
returns `EEXIST`, the child threads are started all the same, and `/d` still has mode
0700, not 0755. -/
theorem copy_dir_children_under_existing_mode :
    Event.create 0 0 Handler.copy_file ⟨['/', 's', '/', 'f'], ['/', 'd', '/', 'f']⟩
      ∈ (copy_dir 4096 demo_task demo_dir_env_existing).trace ∧
    (copy_dir 4096 demo_task demo_dir_env_existing).dst = some ⟨Kind.dir, 0o700, []⟩ ∧
    (copy_dir 4096 demo_task demo_dir_env_existing).dst ≠ some ⟨Kind.dir, 0o755, []⟩ := by
  decide

theorem copy_dir_mkdir_before_children_witness :
    (copy_dir 4096 demo_task demo_dir_env).dst = some ⟨Kind.dir, 0o755, []⟩ :=
  (copy_dir_mkdir_before_children 4096 demo_task demo_dir_env 0 0 Handler.copy_file
    ⟨['/', 's', '/', 'f'], ['/', 'd', '/', 'f']⟩ (by decide)).2.2.1 rfl

/-- C10 fails on this run: `opendir` succeeds, `mkdir` fails with `EACCES`, and `copy_dir`
returns without a call of `closedir`; the same happens when `malloc(entry_size)` fails. -/
theorem copy_dir_leaks_stream_when_mkdir_fails :
    (copy_dir 4096 demo_task demo_dir_env_mkdir_fails).trace
      = [Event.opendir, Event.mkdir 0o755 (Attempt.err 13)] ∧
    (copy_dir 4096 demo_task demo_dir_env_mkdir_fails).returned = true ∧
    Event.closedir ∉ (copy_dir 4096 demo_task demo_dir_env_mkdir_fails).trace ∧
    (copy_dir 4096 demo_task demo_dir_env_malloc_fails).trace
      = [Event.opendir, Event.mkdir 0o755 (Attempt.ok ())] ∧
    (copy_dir 4096 demo_task demo_dir_env_malloc_fails).returned = true ∧
    Event.closedir ∉ (copy_dir 4096 demo_task demo_dir_env_malloc_fails).trace := by
  decide

/-! ## Path lengths -/

theorem not_create_mem_sleeps (slot tid : Nat) (h : Handler) (nt : task_t) (n : Nat) :
    Event.create slot tid h nt ∉ sleeps n := by
  intro hmem
  cases List.eq_of_mem_replicate hmem

theorem not_create_mem_join_all (slot tid : Nat) (h : Handler) (nt : task_t) (q : LoopState) :
    Event.create slot tid h nt ∉ join_all q := by
  intro hmem
  obtain ⟨i, _, hi⟩ := List.mem_map.mp hmem
  cases hi

theorem copy_dir_loop_paths_fit (PATH_MAX : Nat) (t : task_t) (slot tid : Nat) (h : Handler)
    (nt : task_t) :
    ∀ (stream : List ReadDir) (s : LoopState),
      Event.create slot tid h nt ∈ (copy_dir_loop PATH_MAX t stream s).trace →
      nt.src.length < PATH_MAX ∧ nt.dst.length < PATH_MAX := by
  intro stream
  induction stream with
  | nil => intro s hmem; simp [copy_dir_loop] at hmem
  | cons x rest ih =>
    intro s
    cases x with
    | error ret => intro hmem; simp [copy_dir_loop] at hmem
    | entry e =>
      unfold copy_dir_loop
      by_cases hdot : e.d_name = ['.'] ∨ e.d_name = ['.', '.']
      · rw [if_pos hdot]
        exact ih s
      rw [if_neg hdot]
      by_cases hlong : (t.src ++ '/' :: e.d_name).length ≥ PATH_MAX
          ∨ (t.dst ++ '/' :: e.d_name).length ≥ PATH_MAX
      · rw [if_pos hlong]
        exact ih s
      rw [if_neg hlong]
      have hfit : (t.src ++ '/' :: e.d_name).length < PATH_MAX
          ∧ (t.dst ++ '/' :: e.d_name).length < PATH_MAX := by omega
      have hs := not_create_mem_sleeps slot tid h nt
      have hj := not_create_mem_join_all slot tid h nt
      split
      · intro hmem
        exact absurd hmem (hs _)
      · intro hmem
        simp only [after_trace, List.mem_append, hs, false_or] at hmem
        exact ih s hmem
      · rename_i st_mode n _
        by_cases hty : (!S_ISDIR st_mode && !S_ISREG st_mode) = true
        · rw [if_pos hty]
          intro hmem
          simp only [after_trace, List.mem_append, hs, false_or] at hmem
          exact ih s hmem
        rw [if_neg hty]
        by_cases hm : (!e.malloc_ok) = true
        · rw [if_pos hm]
          intro hmem
          simp only [after_trace, List.mem_append, hs, false_or] at hmem
          exact ih s hmem
        rw [if_neg hm]
        by_cases hprc : e.prc ≠ 0
        · rw [if_pos hprc]
          intro hmem
          simp only [after_trace, List.mem_append, hs, false_or, List.mem_singleton] at hmem
          rcases hmem with hmem | hmem
          · cases hmem
          · exact ih s hmem
        rw [if_neg hprc]
        by_cases hfull : s.n_threads + 1 = MAX_THREADS
        · simp only [if_pos hfull, after_trace, List.mem_append, List.mem_cons, hs, hj, false_or,
            or_false]
          intro hmem
          rcases hmem with hmem | hmem
          · cases hmem
            exact hfit
          · exact ih _ hmem
        · simp only [if_neg hfull, after_trace, List.mem_append, List.mem_singleton, hs,
            false_or]
          intro hmem
          rcases hmem with hmem | hmem
          · cases hmem
            exact hfit
          · exact ih _ hmem

theorem copy_dir_paths_fit (PATH_MAX : Nat) (t : task_t) (env : DirEnv) (slot tid : Nat)
    (h : Handler) (nt : task_t)
    (hmem : Event.create slot tid h nt ∈ (copy_dir PATH_MAX t env).trace) :
    nt.src.length < PATH_MAX ∧ nt.dst.length < PATH_MAX := by
  have hs := not_create_mem_sleeps slot tid h nt
  have hj := not_create_mem_join_all slot tid h nt
  have hbody : Event.create slot tid h nt ∈ (copy_dir_body PATH_MAX t env.stream).trace →
      nt.src.length < PATH_MAX ∧ nt.dst.length < PATH_MAX := by
    unfold copy_dir_body
    simp only
    split
    · intro hm
      simp only [List.mem_append, hj, or_false] at hm
      exact copy_dir_loop_paths_fit PATH_MAX t slot tid h nt _ _ hm
    · exact copy_dir_loop_paths_fit PATH_MAX t slot tid h nt _ _
  unfold copy_dir at hmem
  split at hmem
  · exact absurd hmem (hs _)
  · exact absurd hmem (hs _)
  · simp only at hmem
    split_ifs at hmem
    · simp [hs] at hmem
    · simp [hs] at hmem
    · apply hbody
      simpa [hs] using hmem
    · apply hbody
      simpa [hs] using hmem

theorem main_outcome (PATH_MAX : Nat) (argv : List CStr) (env : MainEnv) :
    main PATH_MAX argv env = (1, []) ∨
    (∃ rc, main PATH_MAX argv env = (1, [Event.create_failed 0 rc])) ∨
    (∃ src_real h, env.realpath = some src_real ∧
      main PATH_MAX argv env
        = (0, Event.create 0 0 h ⟨src_real, (argv.getD 2 []).take (PATH_MAX - 1)⟩
          :: env.run h ⟨src_real, (argv.getD 2 []).take (PATH_MAX - 1)⟩ ++ [Event.join 0 0])) := by
  unfold main
  by_cases hargc : argv.length ≠ 3
  · rw [if_pos hargc]
    exact Or.inl rfl
  rw [if_neg hargc]
  cases hrp : env.realpath with
  | none => exact Or.inl rfl
  | some src_real =>
    simp only
    by_cases hin : inside_source ((argv.getD 2 []).take (PATH_MAX - 1)) src_real = true
    · rw [if_pos hin]
      exact Or.inl rfl
    rw [if_neg hin]
    cases hls : env.lstat with
    | err e => exact Or.inl rfl
    | ok st_mode =>
      simp only
      by_cases hm : (!env.malloc_ok) = true
      · rw [if_pos hm]
        exact Or.inl rfl
      rw [if_neg hm]
      by_cases hd : S_ISDIR st_mode = true
      · rw [if_pos hd]
        by_cases hprc : env.prc ≠ 0
        · rw [if_pos hprc]
          exact Or.inr (Or.inl ⟨_, rfl⟩)
        · rw [if_neg hprc]
          exact Or.inr (Or.inr ⟨src_real, Handler.copy_dir, rfl, rfl⟩)
      rw [if_neg hd]
      by_cases hr : S_ISREG st_mode = true
      · rw [if_pos hr]
        by_cases hprc : env.prc ≠ 0
        · rw [if_pos hprc]
          exact Or.inr (Or.inl ⟨_, rfl⟩)
        · rw [if_neg hprc]
          exact Or.inr (Or.inr ⟨src_real, Handler.copy_file, rfl, rfl⟩)
      · rw [if_neg hr]
        exact Or.inl rfl

theorem main_paths_fit (PATH_MAX : Nat) (argv : List CStr) (env : MainEnv)
    (hpos : 0 < PATH_MAX) (hreal : ∀ p, env.realpath = some p → p.length < PATH_MAX)
    (slot tid : Nat) (h : Handler) (nt : task_t)
    (hmem : Event.create slot tid h nt ∈ (main PATH_MAX argv { env with run := fun _ _ => [] }).2) :
    nt.src.length < PATH_MAX ∧ nt.dst.length < PATH_MAX := by
  rcases main_outcome PATH_MAX argv { env with run := fun _ _ => [] } with h1 | ⟨rc, h1⟩ |
    ⟨src_real, h0, hsrc, h1⟩
  · rw [h1] at hmem
    simp at hmem
  · rw [h1] at hmem
    simp at hmem
  · rw [h1] at hmem
    simp at hmem
    obtain ⟨-, -, -, rfl⟩ := hmem
    refine ⟨hreal src_real hsrc, ?_⟩
    simp only [List.length_take]
    omega

/-- C9: when `PATH_MAX` is positive and `realpath` hands over a path shorter than
`PATH_MAX` (as it must, writing into a buffer of that size), every task of the run, the root
task of `main` and the tasks of `copy_dir` at any depth, has a source and a destination
string shorter than `PATH_MAX`; and an entry whose composed source or destination path has
`PATH_MAX` characters or more is passed over: the loop goes on with the next entry, its
variables unchanged and no event recorded. -/
theorem created_tasks_fit_path_buffers (PATH_MAX : Nat) (argv : List CStr) (menv : MainEnv)
    (hpos : 0 < PATH_MAX) (hreal : ∀ p, menv.realpath = some p → p.length < PATH_MAX) :
    (∀ h nt, Created PATH_MAX argv menv h nt →
      nt.src.length < PATH_MAX ∧ nt.dst.length < PATH_MAX) ∧
    (∀ (t : task_t) (e : DirEnt) (rest : List ReadDir) (s : LoopState),
      (PATH_MAX ≤ (t.src ++ '/' :: e.d_name).length
        ∨ PATH_MAX ≤ (t.dst ++ '/' :: e.d_name).length) →
      copy_dir_loop PATH_MAX t (ReadDir.entry e :: rest) s = copy_dir_loop PATH_MAX t rest s) := by
  constructor
  · intro h nt hc
    induction hc with
    | root slot tid h nt hmem => exact main_paths_fit PATH_MAX argv menv hpos hreal slot tid h nt hmem
    | child parent denv slot tid h nt _ hmem _ =>
      exact copy_dir_paths_fit PATH_MAX parent denv slot tid h nt hmem
  · intro t e rest s hlong
    conv_lhs => unfold copy_dir_loop
    by_cases hdot : e.d_name = ['.'] ∨ e.d_name = ['.', '.']
    · rw [if_pos hdot]
    · rw [if_neg hdot, if_pos hlong]

theorem created_tasks_fit_path_buffers_witness :
    (['/', 's', '/', 'g', '/', 'f'] : CStr).length < 4096
      ∧ (['/', 'd', '/', 'g', '/', 'f'] : CStr).length < 4096 :=
  (created_tasks_fit_path_buffers 4096 demo_argv demo_main_env (by decide)
    (by intro p hp; cases hp; decide)).1 Handler.copy_file
    ⟨['/', 's', '/', 'g', '/', 'f'], ['/', 'd', '/', 'g', '/', 'f']⟩
    (Created.child ⟨['/', 's', '/', 'g'], ['/', 'd', '/', 'g']⟩ demo_dir_env 0 0 _ _
      (Created.child demo_task demo_dir_env 1 1 _ _
        (Created.root 0 0 _ _ (by decide)) (by decide))
      (by decide))

/-! ## main -/

theorem S_ISREG_not_S_ISDIR (m : Nat) (h : S_ISREG m = true) : S_ISDIR m = false := by
  simp only [S_ISREG, S_ISDIR, beq_iff_eq] at h ⊢
  rw [h]
  decide

/-- C7: `main` returns 1 and starts no thread when the argument count is not 3, when
`realpath` fails, when the guard finds the destination inside the source, when `lstat` of the
root fails, or when the root is neither a directory nor a regular file.  Otherwise, when
`malloc` and `pthread_create` succeed, it starts exactly one thread, `copy_dir` for a
directory and `copy_file` for a regular file, on the task of the resolved source and the
destination as given, joins it, and returns 0 whatever that thread and its descendants do. -/
theorem main_exit_code (PATH_MAX : Nat) (argv : List CStr) (env : MainEnv) :
    ((argv.length ≠ 3 ∨ env.realpath = none
        ∨ (∃ p, env.realpath = some p
            ∧ inside_source ((argv.getD 2 []).take (PATH_MAX - 1)) p = true)
        ∨ (∃ e, env.lstat = Attempt.err e)
        ∨ (∃ m, env.lstat = Attempt.ok m ∧ S_ISDIR m = false ∧ S_ISREG m = false)) →
      main PATH_MAX argv env = (1, [])) ∧
    (∀ p m, argv.length = 3 → env.realpath = some p →
      inside_source ((argv.getD 2 []).take (PATH_MAX - 1)) p = false →
      env.lstat = Attempt.ok m → env.malloc_ok = true → env.prc = 0 →
      (S_ISDIR m = true →
        main PATH_MAX argv env
          = (0, Event.create 0 0 Handler.copy_dir ⟨p, (argv.getD 2 []).take (PATH_MAX - 1)⟩
            :: env.run Handler.copy_dir ⟨p, (argv.getD 2 []).take (PATH_MAX - 1)⟩
            ++ [Event.join 0 0])) ∧
      (S_ISREG m = true →
        main PATH_MAX argv env
          = (0, Event.create 0 0 Handler.copy_file ⟨p, (argv.getD 2 []).take (PATH_MAX - 1)⟩
            :: env.run Handler.copy_file ⟨p, (argv.getD 2 []).take (PATH_MAX - 1)⟩
            ++ [Event.join 0 0]))) := by
  constructor
  · intro h
    unfold main
    by_cases hargc : argv.length ≠ 3
    · rw [if_pos hargc]
    rw [if_neg hargc]
    cases hrp : env.realpath with
    | none => rfl
    | some src_real =>
      simp only
      by_cases hin : inside_source ((argv.getD 2 []).take (PATH_MAX - 1)) src_real = true
      · rw [if_pos hin]
      rw [if_neg hin]
      cases hls : env.lstat with
      | err e => rfl
      | ok st_mode =>
        simp only
        rcases h with h | h | ⟨p, hp, hpi⟩ | ⟨e, he⟩ | ⟨m, hm, hd, hr⟩
        · exact absurd h hargc
        · rw [hrp] at h
          cases h
        · rw [hrp] at hp
          cases hp
          exact absurd hpi hin
        · rw [hls] at he
          cases he
        · rw [hls] at hm
          cases hm
          simp [hd, hr]
  · intro p m hargc hrp hin hls hmalloc hprc
    unfold main
    simp only [hargc, hrp, hin, hls, hmalloc, hprc]
    constructor
    · intro hd
      simp [hd]
    · intro hr
      simp [hr, S_ISREG_not_S_ISDIR m hr]

theorem main_exit_code_witness :
    main 4096 demo_argv demo_main_env
      = (0, [Event.create 0 0 Handler.copy_dir ⟨['/', 's'], ['/', 'd']⟩, Event.join 0 0]) :=
  ((main_exit_code 4096 demo_argv demo_main_env).2 ['/', 's'] 0o040755 rfl rfl rfl rfl rfl
    rfl).1 rfl

/-- C3 fails on this run: the source resolves to the root directory `/` and the
destination is `/tmp/out`, which lies under it; the guard compares the character after the
source prefix, `t`, with `/` and NUL, does not fire, and `main` starts the root task and
returns 0. -/
theorem main_accepts_destination_under_root :
    inside_source ['/', 't', 'm', 'p', '/', 'o', 'u', 't'] ['/'] = false ∧
    main 4096 root_argv root_main_env
      = (0, [Event.create 0 0 Handler.copy_dir ⟨['/'], ['/', 't', 'm', 'p', '/', 'o', 'u', 't']⟩,
          Event.join 0 0]) := by
  decide

theorem strncmp_prefix : ∀ (s rest : CStr), strncmp (s ++ rest) s s.length = 0 := by
  intro s
  induction s with
  | nil => intro rest; simp [strncmp]
  | cons c s ih => intro rest; simp [strncmp, ih]

theorem inside_source_self (s : CStr) : inside_source s s = true := by
  have h := strncmp_prefix s []
  rw [List.append_nil] at h
  simp [inside_source, h, List.getD_eq_getElem?_getD]

theorem getD_after_prefix (c d : Char) : ∀ (s rest : CStr),
    (s ++ c :: rest).getD s.length d = c := by
  intro s
  induction s with
  | nil => intro rest; rfl
  | cons a s ih => intro rest; simpa using ih rest

theorem inside_source_nested (s rest : CStr) : inside_source (s ++ '/' :: rest) s = true := by
  simp only [inside_source, strncmp_prefix, getD_after_prefix]
  decide

/-- What the guard does catch: a destination that is the resolved source itself, or the
resolved source followed by `/` and anything, is rejected with exit code 1 and no thread,
as long as it is shorter than `PATH_MAX`. -/
theorem main_rejects_prefixed_destination (PATH_MAX : Nat) (prog arg src_real rest : CStr)
    (env : MainEnv) (hreal : env.realpath = some src_real)
    (hlen : (src_real ++ '/' :: rest).length < PATH_MAX) :
    main PATH_MAX [prog, arg, src_real] env = (1, []) ∧
    main PATH_MAX [prog, arg, src_real ++ '/' :: rest] env = (1, []) := by
  have h1 : (src_real ++ '/' :: rest).take (PATH_MAX - 1) = src_real ++ '/' :: rest :=
    List.take_of_length_le (by omega)
  have h2 : src_real.take (PATH_MAX - 1) = src_real :=
    List.take_of_length_le (by simp at hlen; omega)
  constructor
  · simp [main, hreal, h2, inside_source_self]
  · simp only [main, hreal, List.getD_cons_succ, List.getD_cons_zero, h1, inside_source_nested]
    simp

/-! ## Retrying -/

theorem retry_loop_transient {α : Type} (codes : List Nat)
    (hcodes : ∀ c ∈ codes, c = EMFILE ∨ c = EAGAIN) (rest : List (Attempt α)) :
    retry_loop (codes.map Attempt.err ++ rest)
      = ((retry_loop rest).1, (retry_loop rest).2 + codes.length) := by
  induction codes with
  | nil => simp
  | cons c codes ih =>
    have hc := hcodes c (List.mem_cons_self _ _)
    have ih1 := ih (fun c1 h1 => hcodes c1 (List.mem_cons_of_mem _ h1))
    simp only [List.map_cons, List.cons_append, retry_loop, hc, if_true, List.length_cons,
      List.append_eq, ih1]
    rfl

theorem awake_append (a b : List Event) : awake (a ++ b) = awake a ++ awake b := by
  simp [awake]

theorem slept_append (a b : List Event) : slept (a ++ b) = slept a + slept b := by
  induction a with
  | nil => simp [slept]
  | cons ev a ih => cases ev <;> simp [slept, ih, Nat.add_assoc]

theorem awake_sleeps (n : Nat) : awake (sleeps n) = [] := by
  simp [awake, sleeps, Event.is_sleep]

theorem slept_sleeps (n : Nat) : slept (sleeps n) = n := by
  induction n with
  | zero => rfl
  | succ n ih =>
    simp only [sleeps, List.replicate_succ, slept] at ih ⊢
    omega

theorem awake_opened (fd : Fd) (l : List Event) :
    awake (Event.opened fd :: l) = Event.opened fd :: awake l := rfl

theorem awake_closed (fd : Fd) (l : List Event) :
    awake (Event.closed fd :: l) = Event.closed fd :: awake l := rfl

theorem awake_opendir (l : List Event) : awake (Event.opendir :: l) = Event.opendir :: awake l :=
  rfl

theorem awake_mkdir (m : Nat) (r : Attempt Unit) (l : List Event) :
    awake (Event.mkdir m r :: l) = Event.mkdir m r :: awake l := rfl

theorem awake_closedir (l : List Event) :
    awake (Event.closedir :: l) = Event.closedir :: awake l := rfl

theorem awake_create (slot tid : Nat) (h : Handler) (nt : task_t) (l : List Event) :
    awake (Event.create slot tid h nt :: l) = Event.create slot tid h nt :: awake l := rfl

theorem awake_create_failed (slot rc : Nat) (l : List Event) :
    awake (Event.create_failed slot rc :: l) = Event.create_failed slot rc :: awake l := rfl

theorem slept_opened (fd : Fd) (l : List Event) : slept (Event.opened fd :: l) = slept l := rfl

theorem slept_closed (fd : Fd) (l : List Event) : slept (Event.closed fd :: l) = slept l := rfl

theorem slept_opendir (l : List Event) : slept (Event.opendir :: l) = slept l := rfl

theorem slept_mkdir (m : Nat) (r : Attempt Unit) (l : List Event) :
    slept (Event.mkdir m r :: l) = slept l := rfl

theorem slept_closedir (l : List Event) : slept (Event.closedir :: l) = slept l := rfl

theorem slept_create (slot tid : Nat) (h : Handler) (nt : task_t) (l : List Event) :
    slept (Event.create slot tid h nt :: l) = slept l := rfl

theorem slept_create_failed (slot rc : Nat) (l : List Event) :
    slept (Event.create_failed slot rc :: l) = slept l := rfl

theorem slept_nil : slept [] = 0 := rfl

theorem copy_file_retries_open_src (codes : List Nat)
    (hcodes : ∀ c ∈ codes, c = EMFILE ∨ c = EAGAIN) (fuel : Nat) (env : FileEnv) :
    file_slept_more codes.length
      (copy_file fuel { env with open_src := codes.map Attempt.err ++ env.open_src })
      (copy_file fuel env) := by
  unfold copy_file
  simp only [retry_loop_transient codes hcodes]
  rcases retry_loop env.open_src with ⟨_ | ⟨_ | _⟩, n1⟩
  · trivial
  · rcases safe_lstat env.lstat with ⟨_ | ⟨_ | _⟩, n2⟩
    · trivial
    · rcases retry_loop env.open_dst with ⟨_ | ⟨_ | _⟩, n3⟩
      · trivial
      · rcases copy_loop env.write fuel env.reads 0 [] with _ | ⟨e, out⟩
        · trivial
        · simp only [file_slept_more, awake_append, slept_append, awake_sleeps, slept_sleeps,
            awake_opened, awake_closed, slept_opened, slept_closed, slept_nil, true_and]
          omega
      · simp only [file_slept_more, awake_append, slept_append, awake_sleeps, slept_sleeps,
          awake_opened, awake_closed, slept_opened, slept_closed, slept_nil, true_and]
        omega
    · simp only [file_slept_more, awake_append, slept_append, awake_sleeps, slept_sleeps,
        awake_opened, awake_closed, slept_opened, slept_closed, slept_nil, true_and]
      omega
  · simp only [file_slept_more, awake_append, slept_append, awake_sleeps, slept_sleeps,
      awake_opened, awake_closed, slept_opened, slept_closed, slept_nil, true_and]

theorem copy_file_retries_lstat (codes : List Nat)
    (hcodes : ∀ c ∈ codes, c = EMFILE ∨ c = EAGAIN) (fuel : Nat) (env : FileEnv)
    (hsrc : (retry_loop env.open_src).1 = some (Attempt.ok ())) :
    file_slept_more codes.length
      (copy_file fuel { env with lstat := codes.map Attempt.err ++ env.lstat })
      (copy_file fuel env) := by
  revert hsrc
  unfold copy_file safe_lstat
  simp only [retry_loop_transient codes hcodes]
  rcases retry_loop env.open_src with ⟨_ | ⟨_ | _⟩, n1⟩ <;> intro hsrc
  · cases hsrc
  · rcases retry_loop env.lstat with ⟨_ | ⟨_ | _⟩, n2⟩
    · trivial
    · rcases retry_loop env.open_dst with ⟨_ | ⟨_ | _⟩, n3⟩
      · trivial
      · rcases copy_loop env.write fuel env.reads 0 [] with _ | ⟨e, out⟩
        · trivial
        · simp only [file_slept_more, awake_append, slept_append, awake_sleeps, slept_sleeps,
            awake_opened, awake_closed, slept_opened, slept_closed, slept_nil, true_and]
          omega
      · simp only [file_slept_more, awake_append, slept_append, awake_sleeps, slept_sleeps,
          awake_opened, awake_closed, slept_opened, slept_closed, slept_nil, true_and]
        omega
    · simp only [file_slept_more, awake_append, slept_append, awake_sleeps, slept_sleeps,
        awake_opened, awake_closed, slept_opened, slept_closed, slept_nil, true_and]
      omega
  · cases hsrc

theorem copy_file_retries_open_dst (codes : List Nat)
    (hcodes : ∀ c ∈ codes, c = EMFILE ∨ c = EAGAIN) (fuel : Nat) (env : FileEnv)
    (hsrc : (retry_loop env.open_src).1 = some (Attempt.ok ()))
    (hlstat : ∃ m, (safe_lstat env.lstat).1 = some (Attempt.ok m)) :
    file_slept_more codes.length
      (copy_file fuel { env with open_dst := codes.map Attempt.err ++ env.open_dst })
      (copy_file fuel env) := by
  revert hsrc hlstat
  unfold copy_file
  simp only [retry_loop_transient codes hcodes]
  rcases retry_loop env.open_src with ⟨_ | ⟨_ | _⟩, n1⟩ <;> intro hsrc
  · cases hsrc
  · rcases safe_lstat env.lstat with ⟨_ | ⟨_ | _⟩, n2⟩ <;> rintro ⟨m, hm⟩
    · cases hm
    · rcases retry_loop env.open_dst with ⟨_ | ⟨_ | _⟩, n3⟩
      · trivial
      · rcases copy_loop env.write fuel env.reads 0 [] with _ | ⟨e, out⟩
        · trivial
        · simp only [file_slept_more, awake_append, slept_append, awake_sleeps, slept_sleeps,
            awake_opened, awake_closed, slept_opened, slept_closed, slept_nil, true_and]
          omega
      · simp only [file_slept_more, awake_append, slept_append, awake_sleeps, slept_sleeps,
          awake_opened, awake_closed, slept_opened, slept_closed, slept_nil, true_and]
        omega
    · cases hm
  · cases hsrc

theorem copy_dir_retries_opendir (codes : List Nat)
    (hcodes : ∀ c ∈ codes, c = EMFILE ∨ c = EAGAIN) (PATH_MAX : Nat) (t : task_t)
    (env : DirEnv) :
    dir_slept_more codes.length
      (copy_dir PATH_MAX t { env with opendir := codes.map Attempt.err ++ env.opendir })
      (copy_dir PATH_MAX t env) := by
  unfold copy_dir
  simp only [retry_loop_transient codes hcodes]
  rcases retry_loop env.opendir with ⟨_ | ⟨_ | _⟩, n1⟩
  · simp only [dir_slept_more, awake_sleeps, slept_sleeps, true_and]
  · simp only [dir_slept_more]
    split_ifs <;>
      simp only [awake_append, slept_append, awake_sleeps, slept_sleeps, true_and,
        List.nil_append] <;> omega
  · simp only [dir_slept_more, awake_sleeps, slept_sleeps, true_and]

theorem copy_dir_loop_retries_lstat (codes : List Nat)
    (hcodes : ∀ c ∈ codes, c = EMFILE ∨ c = EAGAIN) (PATH_MAX : Nat) (t : task_t)
    (e : DirEnt) (rest : List ReadDir) (s : LoopState)
    (hdot : e.is_dot = false)
    (hfit : (t.src ++ '/' :: e.d_name).length < PATH_MAX
      ∧ (t.dst ++ '/' :: e.d_name).length < PATH_MAX) :
    loop_slept_more codes.length
      (copy_dir_loop PATH_MAX t
        (ReadDir.entry { e with lstat := codes.map Attempt.err ++ e.lstat } :: rest) s)
      (copy_dir_loop PATH_MAX t (ReadDir.entry e :: rest) s) := by
  have hnd : ¬ (e.d_name = ['.'] ∨ e.d_name = ['.', '.']) := by
    intro h
    rw [(is_dot_iff e).mpr h] at hdot
    cases hdot
  have hnl : ¬ ((t.src ++ '/' :: e.d_name).length ≥ PATH_MAX
      ∨ (t.dst ++ '/' :: e.d_name).length ≥ PATH_MAX) := by omega
  unfold copy_dir_loop safe_lstat
  simp only [retry_loop_transient codes hcodes, if_neg hnd, if_neg hnl]
  rcases retry_loop e.lstat with ⟨_ | ⟨m | _⟩, n⟩
  · simp only [loop_slept_more, awake_sleeps, slept_sleeps, true_and]
  · have hsl : ∀ (evs : List Event) (r : LoopResult),
        loop_slept_more codes.length (r.after (sleeps (n + codes.length) ++ evs))
          (r.after (sleeps n ++ evs)) := by
      intro evs r
      simp only [loop_slept_more, after_trace, awake_append, slept_append, awake_sleeps,
        slept_sleeps, true_and]
      exact ⟨rfl, rfl, by omega⟩
    have hsl0 := fun r => hsl [] r
    simp only [List.append_nil] at hsl0
    by_cases hty : (!S_ISDIR m && !S_ISREG m) = true
    · simp only [if_pos hty]
      exact hsl0 _
    by_cases hm : (!e.malloc_ok) = true
    · simp only [if_neg hty, if_pos hm]
      exact hsl0 _
    by_cases hprc : e.prc ≠ 0
    · simp only [if_neg hty, if_neg hm, if_pos hprc]
      exact hsl _ _
    by_cases hfull : s.n_threads + 1 = MAX_THREADS
    · simp only [if_neg hty, if_neg hm, if_neg hprc, if_pos hfull]
      exact hsl _ _
    · simp only [if_neg hty, if_neg hm, if_neg hprc, if_neg hfull]
      exact hsl _ _
  · simp only [loop_slept_more, after_trace, awake_append, slept_append, awake_sleeps,
      slept_sleeps, true_and]
    exact ⟨rfl, rfl, by omega⟩

/-- C8, as stated, fails: the first `write` fails with `EAGAIN` and a second call would
succeed, but `copy_file` does not sleep and does not call `write` again; it stops with the
write error and leaves the destination empty. -/
theorem copy_file_aborts_on_write_eagain :
    copy_file 10 demo_file_env_write_eagain
      = some ⟨[Event.opened Fd.in_fd, Event.opened Fd.out_fd, Event.closed Fd.in_fd,
            Event.closed Fd.out_fd],
          some ⟨Kind.reg, 0o644, []⟩, FileStatus.write_failed EAGAIN⟩ ∧
    copy_file 10 demo_file_env
      = some ⟨[Event.opened Fd.in_fd, Event.opened Fd.out_fd, Event.closed Fd.in_fd,
            Event.closed Fd.out_fd],
          some ⟨Kind.reg, 0o644, [1, 2]⟩, FileStatus.copied⟩ := by
  decide

/-- C8 (amended): at the four wrapped calls, `open` of the source, `lstat` (in `copy_file`
and for every entry in `copy_dir`), `open` of the destination and `opendir`, any number of
failures with `EMFILE` or `EAGAIN` only adds one second of sleep each: the run ends as it
does without them.  A failure with another code, at once or after such failures, ends the
retrying and fails the step: `copy_file` stops with that error at that step and leaves the
destination as it was, `copy_dir` returns without `mkdir` when `opendir` fails and passes
over the entry when its `lstat` fails.  The calls `write`, `read`, `mkdir` and `readdir_r`
are not wrapped: a failure of theirs with any code, `EMFILE` and `EAGAIN` included, is met
once and not retried. -/
theorem transient_failures_retried_at_wrapped_calls (codes : List Nat)
    (hcodes : ∀ c ∈ codes, c = EMFILE ∨ c = EAGAIN) (e : Nat) (he : e ≠ EMFILE ∧ e ≠ EAGAIN) :
    (∀ fuel env, file_slept_more codes.length
      (copy_file fuel { env with open_src := codes.map Attempt.err ++ env.open_src })
      (copy_file fuel env)) ∧
    (∀ fuel env, (retry_loop env.open_src).1 = some (Attempt.ok ()) →
      file_slept_more codes.length
        (copy_file fuel { env with lstat := codes.map Attempt.err ++ env.lstat })
        (copy_file fuel env)) ∧
    (∀ fuel env, (retry_loop env.open_src).1 = some (Attempt.ok ()) →
      (∃ m, (safe_lstat env.lstat).1 = some (Attempt.ok m)) →
      file_slept_more codes.length
        (copy_file fuel { env with open_dst := codes.map Attempt.err ++ env.open_dst })
        (copy_file fuel env)) ∧
    (∀ PATH_MAX t env, dir_slept_more codes.length
      (copy_dir PATH_MAX t { env with opendir := codes.map Attempt.err ++ env.opendir })
      (copy_dir PATH_MAX t env)) ∧
    (∀ PATH_MAX t (ent : DirEnt) rest s, ent.is_dot = false →
      (t.src ++ '/' :: ent.d_name).length < PATH_MAX ∧
        (t.dst ++ '/' :: ent.d_name).length < PATH_MAX →
      loop_slept_more codes.length
        (copy_dir_loop PATH_MAX t
          (ReadDir.entry { ent with lstat := codes.map Attempt.err ++ ent.lstat } :: rest) s)
        (copy_dir_loop PATH_MAX t (ReadDir.entry ent :: rest) s)) ∧
    (∀ (α : Type) (rest : List (Attempt α)),
      retry_loop (Attempt.err e :: rest) = (some (Attempt.err e), 0)) ∧
    (∀ (α : Type) (v : α) (rest : List (Attempt α)),
      retry_loop (codes.map Attempt.err ++ Attempt.ok v :: rest)
        = (some (Attempt.ok v), codes.length)) ∧
    (∀ rest, safe_lstat (codes.map Attempt.err ++ Attempt.err e :: rest)
      = (some (Attempt.err e), codes.length)) ∧
    (∀ fuel (env : FileEnv) rest,
      copy_file fuel { env with open_src := codes.map Attempt.err ++ Attempt.err e :: rest }
        = some ⟨sleeps codes.length, env.dst, FileStatus.open_src_failed e⟩) ∧
    (∀ fuel (env : FileEnv) rest n1, retry_loop env.open_src = (some (Attempt.ok ()), n1) →
      copy_file fuel { env with lstat := codes.map Attempt.err ++ Attempt.err e :: rest }
        = some ⟨sleeps n1 ++ Event.opened Fd.in_fd :: sleeps codes.length
            ++ [Event.closed Fd.in_fd],
          env.dst, FileStatus.lstat_failed e⟩) ∧
    (∀ fuel (env : FileEnv) rest n1 m n2,
      retry_loop env.open_src = (some (Attempt.ok ()), n1) →
      safe_lstat env.lstat = (some (Attempt.ok m), n2) →
      copy_file fuel { env with open_dst := codes.map Attempt.err ++ Attempt.err e :: rest }
        = some ⟨sleeps n1 ++ Event.opened Fd.in_fd :: sleeps n2 ++ sleeps codes.length
            ++ [Event.closed Fd.in_fd],
          env.dst, FileStatus.open_dst_failed e⟩) ∧
    (∀ PATH_MAX t (env : DirEnv) rest,
      copy_dir PATH_MAX t { env with opendir := codes.map Attempt.err ++ Attempt.err e :: rest }
        = ⟨sleeps codes.length, env.dst, true⟩) ∧
    (∀ PATH_MAX t (ent : DirEnt) rest1 rest s, ent.is_dot = false →
      (t.src ++ '/' :: ent.d_name).length < PATH_MAX ∧
        (t.dst ++ '/' :: ent.d_name).length < PATH_MAX →
      copy_dir_loop PATH_MAX t
          (ReadDir.entry { ent with lstat := codes.map Attempt.err ++ Attempt.err e :: rest1 }
            :: rest) s
        = (copy_dir_loop PATH_MAX t rest s).after (sleeps codes.length)) ∧
    (∀ fuel (env : FileEnv) rest,
      copy_file fuel { env with open_src := Attempt.err e :: rest }
        = some ⟨[], env.dst, FileStatus.open_src_failed e⟩) ∧
    (∀ PATH_MAX t (env : DirEnv) rest,
      copy_dir PATH_MAX t { env with opendir := Attempt.err e :: rest }
        = ⟨[], env.dst, true⟩) ∧
    (∀ c write buf fuel k off out, off < List.length buf →
      write k (buf.length - off) = Attempt.err c →
      write_chunk write buf (fuel + 1) k off out = some (some c, k + 1, out)) ∧
    (∀ c write fuel rest k out,
      copy_loop write fuel (Attempt.err c :: rest) k out = some (LoopEnd.read_failed c, out)) ∧
    (∀ c PATH_MAX t (env : DirEnv) n, c ≠ EEXIST → retry_loop env.opendir = (some (Attempt.ok ()), n) →
      env.mkdir_fault = some c →
      copy_dir PATH_MAX t env
        = ⟨sleeps n ++ [Event.opendir, Event.mkdir 0o755 (Attempt.err c)], env.dst, true⟩) ∧
    (∀ ret PATH_MAX t rest s,
      copy_dir_loop PATH_MAX t (ReadDir.error ret :: rest) s = ⟨[], s, true⟩) := by
  have hne : ¬ (e = EMFILE ∨ e = EAGAIN) := by
    intro h
    rcases h with h | h
    · exact he.1 h
    · exact he.2 h
  have hperm : ∀ (α : Type) (rest : List (Attempt α)),
      retry_loop (codes.map Attempt.err ++ Attempt.err e :: rest)
        = (some (Attempt.err e), codes.length) := by
    intro α rest
    rw [retry_loop_transient codes hcodes]
    simp [retry_loop, hne]
  refine ⟨copy_file_retries_open_src codes hcodes, copy_file_retries_lstat codes hcodes,
    copy_file_retries_open_dst codes hcodes, copy_dir_retries_opendir codes hcodes,
    copy_dir_loop_retries_lstat codes hcodes, ?_, ?_, ?_, ?_, ?_, ?_, ?_, ?_, ?_, ?_, ?_, ?_,
    ?_, ?_⟩
  · intro α rest
    simp [retry_loop, hne]
  · intro α v rest
    rw [retry_loop_transient codes hcodes]
    simp [retry_loop]
  · intro rest
    exact hperm Nat rest
  · intro fuel env rest
    simp only [copy_file, hperm]
  · intro fuel env rest n1 hsrc
    simp only [copy_file, safe_lstat, hperm, hsrc]
  · intro fuel env rest n1 m n2 hsrc hlstat
    simp only [copy_file, hperm, hsrc, hlstat]
  · intro PATH_MAX t env rest
    simp only [copy_dir, hperm]
  · intro PATH_MAX t ent rest1 rest s hdot hfit
    have hnd : ¬ (ent.d_name = ['.'] ∨ ent.d_name = ['.', '.']) := by
      intro h
      rw [(is_dot_iff ent).mpr h] at hdot
      cases hdot
    have hnl : ¬ ((t.src ++ '/' :: ent.d_name).length ≥ PATH_MAX
        ∨ (t.dst ++ '/' :: ent.d_name).length ≥ PATH_MAX) := by omega
    conv_lhs => unfold copy_dir_loop
    simp only [safe_lstat, hperm, if_neg hnd, if_neg hnl]
  · intro fuel env rest
    simp [copy_file, retry_loop, hne, sleeps]
  · intro PATH_MAX t env rest
    simp [copy_dir, retry_loop, hne, sleeps]
  · intro c write buf fuel k off out hoff hw
    simp [write_chunk, hoff, hw]
  · intro c write fuel rest k out
    simp [copy_loop]
  · intro c PATH_MAX t env n hc hopen hfault
    have hm : mkdir (some c) env.umask 0o755 env.dst = (Attempt.err c, env.dst) := by
      cases env.dst <;> simp [mkdir]
    simp [copy_dir, hopen, hfault, hm, mkdir_failed, hc]
  · intro ret PATH_MAX t rest s
    simp [copy_dir_loop]

theorem transient_failures_retried_at_wrapped_calls_witness :
    file_slept_more 2
      (copy_file 10
        { demo_file_env with
          open_src := [Attempt.err EMFILE, Attempt.err EAGAIN] ++ demo_file_env.open_src })
      (copy_file 10 demo_file_env) :=
  (transient_failures_retried_at_wrapped_calls [EMFILE, EAGAIN] (by decide) 13
    (by decide)).1 10 demo_file_env

/-! ## Permission bits -/

/-- C5, as stated, fails: a destination that is there already with the bits 0600 is emptied
and rewritten by a complete run of `copy_file` and keeps the bits 0600, while the source has
the permission bits 0644; and under the creation mask 077 a new destination gets the bits
0600. -/
theorem copy_file_mode_differs_from_source :
    copy_file 10 demo_file_env_existing
      = some ⟨[Event.opened Fd.in_fd, Event.opened Fd.out_fd, Event.closed Fd.in_fd,
            Event.closed Fd.out_fd],
          some ⟨Kind.reg, 0o600, [1, 2]⟩, FileStatus.copied⟩ ∧
    copy_file 10 demo_file_env_umask
      = some ⟨[Event.opened Fd.in_fd, Event.opened Fd.out_fd, Event.closed Fd.in_fd,
            Event.closed Fd.out_fd],
          some ⟨Kind.reg, 0o600, [1, 2]⟩, FileStatus.copied⟩ ∧
    safe_lstat demo_file_env_existing.lstat = (some (Attempt.ok 0o100644), 0) ∧
    (0o100644 : Nat) &&& 0o777 = 0o644 := by
  decide

/-- C5 (amended): when `copy_file` returns with every step done, it has passed the
`st_mode` of the source to `open` as creation mode: a destination that was absent is a
regular file whose read, write and execute bits (`mode & 0777`) are those of the source
less the bits of the creation mask, hence those of the source when the mask is zero, and a
destination that was there already keeps the read, write and execute bits it had. -/
theorem copy_file_destination_mode (fuel : Nat) (env : FileEnv) (r : FileResult)
    (hrun : copy_file fuel env = some r) (hdone : r.status = FileStatus.copied) :
    ∃ st_mode n, safe_lstat env.lstat = (some (Attempt.ok st_mode), n) ∧
      (env.dst = none →
        r.dst.map Inode.rwx = some (creat_perm env.umask st_mode) ∧
        (env.umask &&& 0o777 = 0 → r.dst.map Inode.rwx = some (st_mode &&& 0o777))) ∧
      (∀ i, env.dst = some i → r.dst.map Inode.rwx = some i.rwx) := by
  have hzero : ∀ m, env.umask &&& 0o777 = 0 → creat_perm env.umask m = m &&& 0o777 := by
    intro m h
    simp only [creat_perm, h, Nat.xor_zero, Nat.and_assoc, Nat.and_self]
  unfold copy_file at hrun
  rcases h1 : retry_loop env.open_src with ⟨_ | ⟨_ | _⟩, n1⟩ <;> rw [h1] at hrun
  · cases hrun
  · rcases h2 : safe_lstat env.lstat with ⟨_ | ⟨m | _⟩, n2⟩ <;> rw [h2] at hrun
    · cases hrun
    · rcases h3 : retry_loop env.open_dst with ⟨_ | ⟨_ | _⟩, n3⟩ <;> rw [h3] at hrun
      · cases hrun
      · rcases h4 : copy_loop env.write fuel env.reads 0 [] with _ | ⟨e, out⟩ <;>
          rw [h4] at hrun
        · cases hrun
        · simp only [Option.some.injEq] at hrun
          subst hrun
          refine ⟨m, n2, rfl, ?_, ?_⟩
          · intro hd
            have hp : (set_data (open_creat_trunc env.umask m env.dst) out).map Inode.rwx
                = some (creat_perm env.umask m) := by
              rw [hd]
              rfl
            exact ⟨hp, fun hz => by rw [hp, hzero m hz]⟩
          · intro i hd
            simp only [hd]
            rfl
      · simp only [Option.some.injEq] at hrun
        subst hrun
        cases hdone
    · simp only [Option.some.injEq] at hrun
      subst hrun
      cases hdone
  · simp only [Option.some.injEq] at hrun
    subst hrun
    cases hdone

theorem copy_file_destination_mode_witness :
    ∃ st_mode n, safe_lstat demo_file_env.lstat = (some (Attempt.ok st_mode), n) ∧
      (demo_file_env.dst = none →
        (some (⟨Kind.reg, 0o644, [1, 2]⟩ : Inode)).map Inode.rwx
            = some (creat_perm demo_file_env.umask st_mode) ∧
        (demo_file_env.umask &&& 0o777 = 0 →
          (some (⟨Kind.reg, 0o644, [1, 2]⟩ : Inode)).map Inode.rwx
            = some (st_mode &&& 0o777))) ∧
      (∀ i, demo_file_env.dst = some i →
        (some (⟨Kind.reg, 0o644, [1, 2]⟩ : Inode)).map Inode.rwx = some i.rwx) :=
  copy_file_destination_mode 10 demo_file_env
    ⟨[Event.opened Fd.in_fd, Event.opened Fd.out_fd, Event.closed Fd.in_fd,
        Event.closed Fd.out_fd],
      some ⟨Kind.reg, 0o644, [1, 2]⟩, FileStatus.copied⟩ (by decide) rfl

end Lab3
